import Mathlib

/-!
Shallow embedding of the RBAC core of the Go-Aunthetication repository
(`internal/models`, `internal/repository`, `internal/service`).  The backing
PostgreSQL store is modelled as an explicit record of five relations; each
repository method becomes a pure function on that record, translating the SQL
statement it executes (including the schema's uniqueness constraints), and each
service method is translated line by line from the Go source.  Timestamps
(`created_at`, `updated_at`, `assigned_at`) are omitted: no claim mentions them.
-/

deriving instance DecidableEq for Except

namespace GoAuth

/-! ### Go string helpers

Models of `strings.TrimSpace` and `strings.ToLower` as used by the services.
The Go originals handle full Unicode; the model uses `Char.toLower` and the
ASCII whitespace set, which agree with Go on the ASCII strings the system
stores. -/

def goIsSpace (c : Char) : Bool :=
  c = ' ' || c = '\t' || c = '\n' || c = '\r' || c = '\x0b' || c = '\x0c'

def trimSpace (s : String) : String :=
  String.mk (((s.toList.dropWhile goIsSpace).reverse.dropWhile goIsSpace).reverse)

def toLower (s : String) : String :=
  String.mk (s.toList.map Char.toLower)

/-- `strings.ToLower(strings.TrimSpace(s))`, the normalization applied by the
role/permission/user services before uniqueness checks. -/
def normalizeName (s : String) : String :=
  toLower (trimSpace s)

/-! ### Byte-order string comparison (SQL `ORDER BY` on text columns) -/

def listLe : List Char → List Char → Bool
  | [], _ => true
  | _ :: _, [] => false
  | a :: as, b :: bs =>
    if a < b then true
    else if b < a then false
    else listLe as bs

def strLe (a b : String) : Bool :=
  listLe a.toList b.toList

/-! ### Insertion sort, modelling SQL `ORDER BY` -/

def insertBy (le : α → α → Bool) (a : α) : List α → List α
  | [] => [a]
  | b :: l => if le a b then a :: b :: l else b :: insertBy le a l

def sortBy (le : α → α → Bool) : List α → List α
  | [] => []
  | a :: l => insertBy le a (sortBy le l)

/-! ### Data model (`internal/models`) -/

structure User where
  id : Int
  email : String
  password : String
  name : String
deriving DecidableEq

structure Role where
  id : Int
  role_name : String
  description : String
deriving DecidableEq

structure Permission where
  id : Int
  permission_name : String
  resource : String
  action : String
  description : String
deriving DecidableEq

/-- The relational store: tables `users`, `roles`, `permissions` and the two
edge tables `user_roles (user_id, role_id)` and
`role_permissions (role_id, permission_id)`. -/
structure DB where
  users : List User
  roles : List Role
  permissions : List Permission
  user_roles : List (Int × Int)
  role_permissions : List (Int × Int)
deriving DecidableEq

/-- Schema constraints of the migrations (SERIAL positive ids, UNIQUE and
PRIMARY KEY columns, foreign keys from the edge tables): the states reachable
through the store. -/
def SchemaOK (db : DB) : Prop :=
  (∀ u ∈ db.users, 0 < u.id) ∧
  (∀ r ∈ db.roles, 0 < r.id) ∧
  (∀ p ∈ db.permissions, 0 < p.id) ∧
  (db.users.map User.id).Nodup ∧
  (db.roles.map Role.id).Nodup ∧
  (db.permissions.map Permission.id).Nodup ∧
  (db.users.map User.email).Nodup ∧
  (db.roles.map Role.role_name).Nodup ∧
  (db.permissions.map Permission.permission_name).Nodup ∧
  (db.permissions.map (fun p => (p.resource, p.action))).Nodup ∧
  db.user_roles.Nodup ∧
  db.role_permissions.Nodup ∧
  (∀ e ∈ db.user_roles, ∃ u ∈ db.users, u.id = e.1) ∧
  (∀ e ∈ db.user_roles, ∃ r ∈ db.roles, r.id = e.2) ∧
  (∀ e ∈ db.role_permissions, ∃ r ∈ db.roles, r.id = e.1) ∧
  (∀ e ∈ db.role_permissions, ∃ p ∈ db.permissions, p.id = e.2)

instance (db : DB) : Decidable (SchemaOK db) := by
  unfold SchemaOK
  infer_instance

/-! ### Sort keys used by the repository queries -/

/-- `ORDER BY r.role_name` -/
def roleNameLe (a b : Role) : Bool := strLe a.role_name b.role_name

/-- `ORDER BY p.resource, p.action` -/
def permResActLe (a b : Permission) : Bool :=
  if a.resource = b.resource then strLe a.action b.action
  else strLe a.resource b.resource

/-- `ORDER BY u.name` -/
def userNameLe (a b : User) : Bool := strLe a.name b.name

/-! ### Repository layer

Each function translates the SQL statement executed by the corresponding
repository method.  Mutating methods return the error (if any) paired with the
resulting store; an error leaves the store unchanged (single-statement writes).
The edge tables have a primary key on the pair, so an `INNER JOIN` against them
is modelled as membership of the pair. -/

/-- `rbac_repository.go AssignRoleToUser`:
`INSERT INTO user_roles ... ON CONFLICT (user_id, role_id) DO NOTHING`. -/
def rbacAssignRoleToUser (db : DB) (userID roleID : Int) : DB :=
  if (userID, roleID) ∈ db.user_roles then db
  else { db with user_roles := db.user_roles ++ [(userID, roleID)] }

/-- `rbac_repository.go RemoveRoleFromUser`:
`DELETE FROM user_roles WHERE user_id = $1 AND role_id = $2`, then an error
when `RowsAffected` is zero. -/
def rbacRemoveRoleFromUser (db : DB) (userID roleID : Int) :
    Except String Unit × DB :=
  if db.user_roles.length -
      (db.user_roles.filter (fun e => !(e.1 = userID ∧ e.2 = roleID))).length = 0 then
    (.error "user-role assignment not found", db)
  else
    (.ok (), { db with user_roles :=
      db.user_roles.filter (fun e => !(e.1 = userID ∧ e.2 = roleID)) })

/-- `rbac_repository.go GetUserRoles`:
`SELECT r.* FROM roles r INNER JOIN user_roles ur ON r.id = ur.role_id
WHERE ur.user_id = $1 ORDER BY r.role_name`. -/
def rbacGetUserRoles (db : DB) (userID : Int) : List Role :=
  sortBy roleNameLe (db.roles.filter (fun r => (userID, r.id) ∈ db.user_roles))

/-- `rbac_repository.go GetUserPermissions`:
`SELECT DISTINCT p.* FROM permissions p
INNER JOIN role_permissions rp ON p.id = rp.permission_id
INNER JOIN user_roles ur ON rp.role_id = ur.role_id
WHERE ur.user_id = $1 ORDER BY p.resource, p.action`. -/
def rbacGetUserPermissions (db : DB) (userID : Int) : List Permission :=
  sortBy permResActLe
    ((db.permissions.filter (fun p =>
      db.role_permissions.any (fun rp =>
        decide ((userID, rp.1) ∈ db.user_roles) && rp.2 = p.id))).dedup)

/-- `rbac_repository.go UserHasRole`:
`SELECT EXISTS(SELECT 1 FROM user_roles ur INNER JOIN roles r ON ur.role_id = r.id
WHERE ur.user_id = $1 AND r.role_name = $2)` — the name is compared exactly. -/
def rbacUserHasRole (db : DB) (userID : Int) (roleName : String) : Bool :=
  db.user_roles.any (fun ur =>
    ur.1 = userID && db.roles.any (fun r => r.id = ur.2 && r.role_name = roleName))

/-- `rbac_repository.go UserHasPermission`:
`SELECT EXISTS(SELECT 1 FROM user_roles ur
INNER JOIN role_permissions rp ON ur.role_id = rp.role_id
INNER JOIN permissions p ON rp.permission_id = p.id
WHERE ur.user_id = $1 AND p.permission_name = $2)` — exact name comparison. -/
def rbacUserHasPermission (db : DB) (userID : Int) (permissionName : String) : Bool :=
  db.user_roles.any (fun ur =>
    ur.1 = userID && db.role_permissions.any (fun rp =>
      rp.1 = ur.2 && db.permissions.any (fun p =>
        p.id = rp.2 && p.permission_name = permissionName)))

/-- `rbac_repository.go AssignPermissionToRole`:
`INSERT INTO role_permissions ... ON CONFLICT (role_id, permission_id) DO NOTHING`. -/
def rbacAssignPermissionToRole (db : DB) (roleID permissionID : Int) : DB :=
  if (roleID, permissionID) ∈ db.role_permissions then db
  else { db with role_permissions := db.role_permissions ++ [(roleID, permissionID)] }

/-- `role_repository.go GetByID`: `SELECT ... FROM roles WHERE id = $1`. -/
def roleGetByID (db : DB) (id : Int) : Except String Role :=
  match db.roles.find? (fun r => r.id = id) with
  | some r => .ok r
  | none => .error "role not found"

/-- `role_repository.go GetByName`: `SELECT ... FROM roles WHERE role_name = $1`. -/
def roleGetByName (db : DB) (name : String) : Except String Role :=
  match db.roles.find? (fun r => r.role_name = name) with
  | some r => .ok r
  | none => .error "role not found"

/-- Fresh SERIAL id for an insert into `roles`. -/
def nextRoleId (db : DB) : Int :=
  1 + (db.roles.map Role.id).foldr max 0

/-- `role_repository.go Create`: `INSERT INTO roles (role_name, description)
... RETURNING id`; the `UNIQUE` constraint on `role_name` rejects duplicates. -/
def roleRepoCreate (db : DB) (role : Role) : Except String Role × DB :=
  if db.roles.any (fun r => r.role_name = role.role_name) then
    (.error "duplicate key value violates unique constraint on roles.role_name", db)
  else
    let inserted := { role with id := nextRoleId db }
    (.ok inserted, { db with roles := db.roles ++ [inserted] })

/-- `role_repository.go Update`: `UPDATE roles SET role_name = $1,
description = $2 WHERE id = $3`; errors when the id is absent or the new
`role_name` collides with a different row (`UNIQUE` constraint). -/
def roleRepoUpdate (db : DB) (role : Role) : Except String Unit × DB :=
  if db.roles.all (fun r => !(r.id = role.id)) then
    (.error "role not found", db)
  else if db.roles.any (fun r => !(r.id = role.id) && r.role_name = role.role_name) then
    (.error "duplicate key value violates unique constraint on roles.role_name", db)
  else
    (.ok (), { db with roles := db.roles.map (fun r => if r.id = role.id then role else r) })

/-- `role_repository.go GetRolePermissions`:
`SELECT p.* FROM permissions p INNER JOIN role_permissions rp
ON p.id = rp.permission_id WHERE rp.role_id = $1 ORDER BY p.resource, p.action`. -/
def roleGetRolePermissions (db : DB) (roleID : Int) : List Permission :=
  sortBy permResActLe
    (db.permissions.filter (fun p => (roleID, p.id) ∈ db.role_permissions))

/-- `role_repository.go GetRoleUsers`:
`SELECT u.id, u.email, u.name, ... FROM users u INNER JOIN user_roles ur
ON u.id = ur.user_id WHERE ur.role_id = $1 ORDER BY u.name`, followed by the
explicit `users[i].Password = ""` loop (the query does not even select the
password column). -/
def roleGetRoleUsers (db : DB) (roleID : Int) : List User :=
  (sortBy userNameLe
    (db.users.filter (fun u => (u.id, roleID) ∈ db.user_roles))).map
      (fun u => { u with password := "" })

/-- `permission_repository.go GetByID`. -/
def permGetByID (db : DB) (id : Int) : Except String Permission :=
  match db.permissions.find? (fun p => p.id = id) with
  | some p => .ok p
  | none => .error "permission not found"

/-- `permission_repository.go GetByName`:
`SELECT ... FROM permissions WHERE permission_name = $1`. -/
def permGetByName (db : DB) (name : String) : Except String Permission :=
  match db.permissions.find? (fun p => p.permission_name = name) with
  | some p => .ok p
  | none => .error "permission not found"

/-- Fresh SERIAL id for an insert into `permissions`. -/
def nextPermId (db : DB) : Int :=
  1 + (db.permissions.map Permission.id).foldr max 0

/-- `permission_repository.go Create`: `INSERT INTO permissions ... RETURNING id`;
the table has `UNIQUE (permission_name)` and `UNIQUE (resource, action)`. -/
def permRepoCreate (db : DB) (p : Permission) : Except String Permission × DB :=
  if db.permissions.any (fun q => q.permission_name = p.permission_name) then
    (.error "duplicate key value violates unique constraint on permissions.permission_name", db)
  else if db.permissions.any (fun q => q.resource = p.resource && q.action = p.action) then
    (.error "duplicate key value violates unique constraint on permissions (resource, action)", db)
  else
    let inserted := { p with id := nextPermId db }
    (.ok inserted, { db with permissions := db.permissions ++ [inserted] })

/-- `permission_repository.go Update`: `UPDATE permissions SET ... WHERE id = $5`;
errors when the id is absent or either uniqueness constraint is violated by a
different row. -/
def permRepoUpdate (db : DB) (p : Permission) : Except String Unit × DB :=
  if db.permissions.all (fun q => !(q.id = p.id)) then
    (.error "permission not found", db)
  else if db.permissions.any (fun q =>
      !(q.id = p.id) && q.permission_name = p.permission_name) then
    (.error "duplicate key value violates unique constraint on permissions.permission_name", db)
  else if db.permissions.any (fun q =>
      !(q.id = p.id) && q.resource = p.resource && q.action = p.action) then
    (.error "duplicate key value violates unique constraint on permissions (resource, action)", db)
  else
    (.ok (), { db with permissions :=
      db.permissions.map (fun q => if q.id = p.id then p else q) })

/-- `user_repository.go GetByID`: `SELECT ... FROM users WHERE id = $1`. -/
def userGetByID (db : DB) (id : Int) : Except String User :=
  match db.users.find? (fun u => u.id = id) with
  | some u => .ok u
  | none => .error "user not found"

/-- `user_repository.go GetByEmail`: `SELECT ... FROM users WHERE email = $1`. -/
def userGetByEmail (db : DB) (email : String) : Except String User :=
  match db.users.find? (fun u => u.email = email) with
  | some u => .ok u
  | none => .error "user not found"

/-- `user_repository.go Update`: `UPDATE users SET email = $1, name = $2
WHERE id = $3` — only `email` and `name` are written; the stored password is
untouched.  The `users` table has `UNIQUE (email)`. -/
def userRepoUpdate (db : DB) (user : User) : Except String Unit × DB :=
  if db.users.all (fun u => !(u.id = user.id)) then
    (.error "user not found", db)
  else if db.users.any (fun u => !(u.id = user.id) && u.email = user.email) then
    (.error "duplicate key value violates unique constraint on users.email", db)
  else
    (.ok (), { db with users := db.users.map (fun u =>
      if u.id = user.id then { u with email := user.email, name := user.name } else u) })

/-! ### Request DTOs and their `go-playground/validator` tags

The validator counts runes for `min`/`max` on strings (`String.length` here),
treats `required` on a string as non-empty / on an int as non-zero, and skips
all further checks of an `omitempty` field whose value is the zero value.  The
Go services report every validator failure as
`"validation failed: " ++ details`; the model drops the details. -/

structure CreateRoleRequest where
  role_name : String
  description : String
deriving DecidableEq

/-- `RoleName validate:"required,min=2,max=100"`,
`Description validate:"omitempty,max=500"`. -/
def validCreateRoleRequest (req : CreateRoleRequest) : Bool :=
  (2 ≤ req.role_name.length && req.role_name.length ≤ 100) &&
  (req.description = "" || req.description.length ≤ 500)

structure UpdateRoleRequest where
  role_name : String
  description : String
deriving DecidableEq

/-- `RoleName validate:"omitempty,min=2,max=100"`,
`Description validate:"omitempty,max=500"`. -/
def validUpdateRoleRequest (req : UpdateRoleRequest) : Bool :=
  (req.role_name = "" || (2 ≤ req.role_name.length && req.role_name.length ≤ 100)) &&
  (req.description = "" || req.description.length ≤ 500)

structure CreatePermissionRequest where
  permission_name : String
  resource : String
  action : String
  description : String
deriving DecidableEq

/-- `PermissionName validate:"required,min=2,max=100"`,
`Resource validate:"required,min=2,max=100"`,
`Action validate:"required,min=2,max=50"`,
`Description validate:"omitempty,max=500"`. -/
def validCreatePermissionRequest (req : CreatePermissionRequest) : Bool :=
  (2 ≤ req.permission_name.length && req.permission_name.length ≤ 100) &&
  (2 ≤ req.resource.length && req.resource.length ≤ 100) &&
  (2 ≤ req.action.length && req.action.length ≤ 50) &&
  (req.description = "" || req.description.length ≤ 500)

structure UpdatePermissionRequest where
  permission_name : String
  resource : String
  action : String
  description : String
deriving DecidableEq

/-- The `omitempty` variants of the `CreatePermissionRequest` tags. -/
def validUpdatePermissionRequest (req : UpdatePermissionRequest) : Bool :=
  (req.permission_name = "" ||
    (2 ≤ req.permission_name.length && req.permission_name.length ≤ 100)) &&
  (req.resource = "" || (2 ≤ req.resource.length && req.resource.length ≤ 100)) &&
  (req.action = "" || (2 ≤ req.action.length && req.action.length ≤ 50)) &&
  (req.description = "" || req.description.length ≤ 500)

structure UpdateUserRequest where
  name : String
  email : String
deriving DecidableEq

/-- Model of the validator's `email` format rule: exactly one `@` with
non-empty parts on both sides.  (The Go rule is stricter; no claim depends on
its details, and the theorems below only exercise it on `""` and on plainly
valid addresses.) -/
def looksLikeEmail (s : String) : Bool :=
  s.toList.count '@' = 1 &&
  (s.toList.takeWhile (fun c => c ≠ '@')).length ≠ 0 &&
  ((s.toList.dropWhile (fun c => c ≠ '@')).drop 1).length ≠ 0

/-- `Name validate:"omitempty,min=2"`, `Email validate:"omitempty,email"`. -/
def validUpdateUserRequest (req : UpdateUserRequest) : Bool :=
  (req.name = "" || 2 ≤ req.name.length) &&
  (req.email = "" || looksLikeEmail req.email)

structure AssignRoleRequest where
  user_id : Int
  role_id : Int
deriving DecidableEq

/-- `UserID validate:"required,gt=0"`, `RoleID validate:"required,gt=0"`. -/
def validAssignRoleRequest (req : AssignRoleRequest) : Bool :=
  0 < req.user_id && 0 < req.role_id

structure AssignPermissionRequest where
  role_id : Int
  permission_id : Int
deriving DecidableEq

/-- `RoleID validate:"required,gt=0"`, `PermissionID validate:"required,gt=0"`. -/
def validAssignPermissionRequest (req : AssignPermissionRequest) : Bool :=
  0 < req.role_id && 0 < req.permission_id

/-! ### Service layer (`internal/service`)

Direct translations of the Go service methods; each mutating method returns the
error (if any) paired with the resulting store.  In Go the duplicate checks
read `existing, _ := repo.GetByName(...); if existing != nil`, i.e. they treat
any lookup failure as "no duplicate"; the model mirrors that with a `match` on
the lookup result. -/

/-- `role_service.go CreateRole`. -/
def svcCreateRole (db : DB) (req : CreateRoleRequest) : Except String Role × DB :=
  if !validCreateRoleRequest req then
    (.error "validation failed", db)
  else
    let name := normalizeName req.role_name
    match roleGetByName db name with
    | .ok _ => (.error "role already exists", db)
    | .error _ =>
      let newRole : Role := { id := 0, role_name := name, description := req.description }
      match roleRepoCreate db newRole with
      | (.ok role, db') => (.ok role, db')
      | (.error e, db') => (.error ("failed to create role: " ++ e), db')

/-- `role_service.go UpdateRole`. -/
def svcUpdateRole (db : DB) (id : Int) (req : UpdateRoleRequest) :
    Except String Role × DB :=
  if !validUpdateRoleRequest req then
    (.error "validation failed", db)
  else
    match roleGetByID db id with
    | .error e => (.error e, db)
    | .ok role =>
      let step1 : Except String Role :=
        if req.role_name ≠ "" then
          let newName := normalizeName req.role_name
          match roleGetByName db newName with
          | .ok existing =>
            if existing.id ≠ id then .error "role name already in use"
            else .ok { role with role_name := newName }
          | .error _ => .ok { role with role_name := newName }
        else .ok role
      match step1 with
      | .error e => (.error e, db)
      | .ok role1 =>
        let role2 :=
          if req.description ≠ "" then { role1 with description := req.description }
          else role1
        match roleRepoUpdate db role2 with
        | (.ok _, db') => (.ok role2, db')
        | (.error e, db') => (.error ("failed to update role: " ++ e), db')

/-- `permission_service.go CreatePermission`. -/
def svcCreatePermission (db : DB) (req : CreatePermissionRequest) :
    Except String Permission × DB :=
  if !validCreatePermissionRequest req then
    (.error "validation failed", db)
  else
    let name := normalizeName req.permission_name
    let resource := normalizeName req.resource
    let action := normalizeName req.action
    match permGetByName db name with
    | .ok _ => (.error "permission already exists", db)
    | .error _ =>
      let newPerm : Permission :=
        { id := 0, permission_name := name, resource := resource, action := action, description := req.description }
      match permRepoCreate db newPerm with
      | (.ok p, db') => (.ok p, db')
      | (.error e, db') => (.error ("failed to create permission: " ++ e), db')

/-- `permission_service.go UpdatePermission`. -/
def svcUpdatePermission (db : DB) (id : Int) (req : UpdatePermissionRequest) :
    Except String Permission × DB :=
  if !validUpdatePermissionRequest req then
    (.error "validation failed", db)
  else
    match permGetByID db id with
    | .error e => (.error e, db)
    | .ok p =>
      let step1 : Except String Permission :=
        if req.permission_name ≠ "" then
          let newName := normalizeName req.permission_name
          match permGetByName db newName with
          | .ok existing =>
            if existing.id ≠ id then .error "permission name already in use"
            else .ok { p with permission_name := newName }
          | .error _ => .ok { p with permission_name := newName }
        else .ok p
      match step1 with
      | .error e => (.error e, db)
      | .ok p1 =>
        let p2 :=
          if req.resource ≠ "" then { p1 with resource := normalizeName req.resource }
          else p1
        let p3 :=
          if req.action ≠ "" then { p2 with action := normalizeName req.action }
          else p2
        let p4 :=
          if req.description ≠ "" then { p3 with description := req.description }
          else p3
        match permRepoUpdate db p4 with
        | (.ok _, db') => (.ok p4, db')
        | (.error e, db') => (.error ("failed to update permission: " ++ e), db')

/-- `user_service.go UpdateUser`: updates name/email when supplied, re-checks
email uniqueness, persists via the repository (which writes only email and
name), and clears the password on the returned value. -/
def svcUpdateUser (db : DB) (id : Int) (req : UpdateUserRequest) :
    Except String User × DB :=
  if !validUpdateUserRequest req then
    (.error "validation failed", db)
  else
    match userGetByID db id with
    | .error e => (.error e, db)
    | .ok user =>
      let user1 :=
        if req.name ≠ "" then { user with name := req.name } else user
      let step2 : Except String User :=
        if req.email ≠ "" then
          let newEmail := toLower (trimSpace req.email)
          match userGetByEmail db newEmail with
          | .ok existing =>
            if existing.id ≠ id then .error "email already in use"
            else .ok { user1 with email := newEmail }
          | .error _ => .ok { user1 with email := newEmail }
        else .ok user1
      match step2 with
      | .error e => (.error e, db)
      | .ok user2 =>
        match userRepoUpdate db user2 with
        | (.ok _, db') => (.ok { user2 with password := "" }, db')
        | (.error e, db') => (.error ("failed to update user: " ++ e), db')

/-- `rbac_service.go AssignRoleToUser`: validates the request, verifies the
user and the role exist (NotFound otherwise), then delegates the idempotent
edge insert to the repository. -/
def svcAssignRoleToUser (db : DB) (req : AssignRoleRequest) :
    Except String Unit × DB :=
  if !validAssignRoleRequest req then
    (.error "validation failed", db)
  else
    match userGetByID db req.user_id with
    | .error _ => (.error "user not found", db)
    | .ok _ =>
      match roleGetByID db req.role_id with
      | .error _ => (.error "role not found", db)
      | .ok _ => (.ok (), rbacAssignRoleToUser db req.user_id req.role_id)

/-- `rbac_service.go AssignPermissionToRole`: validates, verifies the role and
the permission exist, then delegates the idempotent edge insert. -/
def svcAssignPermissionToRole (db : DB) (req : AssignPermissionRequest) :
    Except String Unit × DB :=
  if !validAssignPermissionRequest req then
    (.error "validation failed", db)
  else
    match roleGetByID db req.role_id with
    | .error _ => (.error "role not found", db)
    | .ok _ =>
      match permGetByID db req.permission_id with
      | .error _ => (.error "permission not found", db)
      | .ok _ => (.ok (), rbacAssignPermissionToRole db req.role_id req.permission_id)

/-- `rbac_service.go RemoveRoleFromUser`: delegates to the repository. -/
def svcRemoveRoleFromUser (db : DB) (userID roleID : Int) :
    Except String Unit × DB :=
  rbacRemoveRoleFromUser db userID roleID

/-! ### Lemmas about the sorting model -/

theorem mem_insertBy (le : α → α → Bool) (a x : α) :
    ∀ l : List α, x ∈ insertBy le a l ↔ x = a ∨ x ∈ l
  | [] => by simp [insertBy]
  | b :: l => by
    simp only [insertBy]
    by_cases h : le a b = true
    · simp [h]
    · rw [if_neg h]
      simp only [List.mem_cons, mem_insertBy le a x l]
      tauto

theorem mem_sortBy (le : α → α → Bool) (x : α) :
    ∀ l : List α, x ∈ sortBy le l ↔ x ∈ l
  | [] => by simp [sortBy]
  | a :: l => by
    simp only [sortBy, mem_insertBy, mem_sortBy le x l, List.mem_cons]

theorem nodup_insertBy (le : α → α → Bool) (a : α) :
    ∀ l : List α, a ∉ l → l.Nodup → (insertBy le a l).Nodup
  | [], _, _ => List.nodup_singleton a
  | b :: l, ha, hl => by
    simp only [insertBy]
    by_cases h : le a b = true
    · rw [if_pos h]
      exact List.Nodup.cons ha hl
    · rw [if_neg h]
      rcases List.nodup_cons.mp hl with ⟨hbl, hl'⟩
      refine List.nodup_cons.mpr ⟨?_, ?_⟩
      · rw [mem_insertBy]
        rintro (hba | hbl')
        · exact ha (hba ▸ List.mem_cons_self b l)
        · exact hbl hbl'
      · exact nodup_insertBy le a l (fun hal => ha (List.mem_cons_of_mem b hal)) hl'

theorem nodup_sortBy (le : α → α → Bool) :
    ∀ l : List α, l.Nodup → (sortBy le l).Nodup
  | [], _ => List.nodup_nil
  | a :: l, h => by
    rcases List.nodup_cons.mp h with ⟨hal, hl⟩
    exact nodup_insertBy le a (sortBy le l)
      (fun hmem => hal ((mem_sortBy le a l).mp hmem)) (nodup_sortBy le l hl)

theorem head_insertBy (le : α → α → Bool) (a : α) :
    ∀ l : List α, (insertBy le a l).head? = some a ∨ (insertBy le a l).head? = l.head?
  | [] => .inl rfl
  | b :: l => by
    simp only [insertBy]
    by_cases h : le a b = true
    · simp [h]
    · simp [h]

theorem chain_insertBy (le : α → α → Bool)
    (htot : ∀ x y, (le x y || le y x) = true) (a : α) :
    ∀ l : List α, List.Chain' (fun x y => le x y = true) l →
      List.Chain' (fun x y => le x y = true) (insertBy le a l)
  | [], _ => List.chain'_singleton a
  | b :: l, h => by
    rw [List.chain'_cons'] at h
    simp only [insertBy]
    by_cases hab : le a b = true
    · rw [if_pos hab]
      rw [List.chain'_cons']
      refine ⟨?_, List.chain'_cons'.mpr h⟩
      intro y hy
      simp only [List.head?_cons, Option.mem_def, Option.some.injEq] at hy
      exact hy ▸ hab
    · rw [if_neg hab]
      rw [List.chain'_cons']
      refine ⟨?_, chain_insertBy le htot a l h.2⟩
      intro y hy
      rcases head_insertBy le a l with h1 | h1
      · rw [h1] at hy
        simp only [Option.mem_def, Option.some.injEq] at hy
        subst hy
        have := htot a b
        simp only [hab, Bool.false_or] at this
        exact this
      · rw [h1] at hy
        exact h.1 y hy

theorem chain_sortBy (le : α → α → Bool)
    (htot : ∀ x y, (le x y || le y x) = true) :
    ∀ l : List α, List.Chain' (fun x y => le x y = true) (sortBy le l)
  | [] => List.chain'_nil
  | a :: l => chain_insertBy le htot a (sortBy le l) (chain_sortBy le htot l)

/-! ### Totality of the sort keys -/

theorem listLe_total : ∀ a b : List Char, (listLe a b || listLe b a) = true
  | [], b => by simp [listLe]
  | a :: as, [] => by simp [listLe]
  | a :: as, b :: bs => by
    simp only [listLe]
    by_cases hab : a < b
    · simp [hab]
    · by_cases hba : b < a
      · simp [hab, hba]
      · simp only [hab, hba, if_false]
        exact listLe_total as bs

theorem strLe_total (a b : String) : (strLe a b || strLe b a) = true :=
  listLe_total a.toList b.toList

theorem roleNameLe_total (a b : Role) : (roleNameLe a b || roleNameLe b a) = true :=
  strLe_total a.role_name b.role_name

theorem userNameLe_total (a b : User) : (userNameLe a b || userNameLe b a) = true :=
  strLe_total a.name b.name

theorem permResActLe_total (a b : Permission) :
    (permResActLe a b || permResActLe b a) = true := by
  unfold permResActLe
  by_cases h : a.resource = b.resource
  · rw [if_pos h, if_pos h.symm]
    exact strLe_total a.action b.action
  · rw [if_neg h, if_neg (Ne.symm h)]
    exact strLe_total a.resource b.resource

/-! ### Characterizations of the read queries -/

theorem mem_rbacGetUserRoles (db : DB) (userID : Int) (r : Role) :
    r ∈ rbacGetUserRoles db userID ↔
      r ∈ db.roles ∧ (userID, r.id) ∈ db.user_roles := by
  unfold rbacGetUserRoles
  rw [mem_sortBy, List.mem_filter, decide_eq_true_eq]

theorem mem_roleGetRolePermissions (db : DB) (roleID : Int) (p : Permission) :
    p ∈ roleGetRolePermissions db roleID ↔
      p ∈ db.permissions ∧ (roleID, p.id) ∈ db.role_permissions := by
  unfold roleGetRolePermissions
  rw [mem_sortBy, List.mem_filter, decide_eq_true_eq]

theorem mem_rbacGetUserPermissions (db : DB) (userID : Int) (p : Permission) :
    p ∈ rbacGetUserPermissions db userID ↔
      p ∈ db.permissions ∧ ∃ rp ∈ db.role_permissions,
        (userID, rp.1) ∈ db.user_roles ∧ rp.2 = p.id := by
  unfold rbacGetUserPermissions
  rw [mem_sortBy, List.mem_dedup, List.mem_filter]
  simp only [List.any_eq_true, Bool.and_eq_true, decide_eq_true_eq]

theorem rbacUserHasRole_iff (db : DB) (userID : Int) (name : String) :
    rbacUserHasRole db userID name = true ↔
      ∃ r ∈ db.roles, (userID, r.id) ∈ db.user_roles ∧ r.role_name = name := by
  unfold rbacUserHasRole
  simp only [List.any_eq_true, Bool.and_eq_true, decide_eq_true_eq]
  constructor
  · rintro ⟨ur, hur, h1, r, hr, h2, h3⟩
    refine ⟨r, hr, ?_, h3⟩
    have he : (userID, r.id) = ur := by rw [← h1, h2]
    rw [he]
    exact hur
  · rintro ⟨r, hr, hmem, hname⟩
    exact ⟨(userID, r.id), hmem, rfl, r, hr, rfl, hname⟩

theorem rbacUserHasPermission_iff (db : DB) (userID : Int) (name : String) :
    rbacUserHasPermission db userID name = true ↔
      ∃ p ∈ db.permissions, ∃ roleID : Int, (userID, roleID) ∈ db.user_roles ∧
        (roleID, p.id) ∈ db.role_permissions ∧ p.permission_name = name := by
  unfold rbacUserHasPermission
  simp only [List.any_eq_true, Bool.and_eq_true, decide_eq_true_eq]
  constructor
  · rintro ⟨ur, hur, h1, rp, hrp, h2, p, hp, h3, h4⟩
    refine ⟨p, hp, ur.2, ?_, ?_, h4⟩
    · have he : (userID, ur.2) = ur := by rw [← h1]
      rw [he]
      exact hur
    · have he : (ur.2, p.id) = rp := by rw [← h2, h3]
      rw [he]
      exact hrp
  · rintro ⟨p, hp, roleID, hur, hrp, hname⟩
    exact ⟨(userID, roleID), hur, rfl, (roleID, p.id), hrp, rfl, p, hp, rfl, hname⟩

/-! ### Lookup lemmas -/

theorem userGetByID_ok {db : DB} {id : Int} {u : User}
    (h : userGetByID db id = .ok u) : u ∈ db.users ∧ u.id = id := by
  unfold userGetByID at h
  cases hf : db.users.find? (fun u => u.id = id) with
  | none => rw [hf] at h; cases h
  | some u' =>
    rw [hf] at h
    simp only [Except.ok.injEq] at h
    subst h
    exact ⟨List.mem_of_find?_eq_some hf, by simpa using List.find?_some hf⟩

theorem userGetByID_present {db : DB} {id : Int}
    (h : ∃ u ∈ db.users, u.id = id) :
    ∃ u, userGetByID db id = .ok u ∧ u ∈ db.users ∧ u.id = id := by
  unfold userGetByID
  cases hf : db.users.find? (fun u => u.id = id) with
  | none =>
    obtain ⟨u, hu, hid⟩ := h
    exact absurd (by simpa using List.find?_eq_none.mp hf u hu) (by simp [hid])
  | some u' =>
    exact ⟨u', rfl, List.mem_of_find?_eq_some hf, by simpa using List.find?_some hf⟩

theorem userGetByID_absent {db : DB} {id : Int}
    (h : ∀ u ∈ db.users, u.id ≠ id) : userGetByID db id = .error "user not found" := by
  unfold userGetByID
  rw [List.find?_eq_none.mpr (fun u hu => by simpa using h u hu)]

theorem roleGetByID_ok {db : DB} {id : Int} {r : Role}
    (h : roleGetByID db id = .ok r) : r ∈ db.roles ∧ r.id = id := by
  unfold roleGetByID at h
  cases hf : db.roles.find? (fun r => r.id = id) with
  | none => rw [hf] at h; cases h
  | some r' =>
    rw [hf] at h
    simp only [Except.ok.injEq] at h
    subst h
    exact ⟨List.mem_of_find?_eq_some hf, by simpa using List.find?_some hf⟩

theorem roleGetByID_present {db : DB} {id : Int}
    (h : ∃ r ∈ db.roles, r.id = id) :
    ∃ r, roleGetByID db id = .ok r ∧ r ∈ db.roles ∧ r.id = id := by
  unfold roleGetByID
  cases hf : db.roles.find? (fun r => r.id = id) with
  | none =>
    obtain ⟨r, hr, hid⟩ := h
    exact absurd (by simpa using List.find?_eq_none.mp hf r hr) (by simp [hid])
  | some r' =>
    exact ⟨r', rfl, List.mem_of_find?_eq_some hf, by simpa using List.find?_some hf⟩

theorem roleGetByID_absent {db : DB} {id : Int}
    (h : ∀ r ∈ db.roles, r.id ≠ id) : roleGetByID db id = .error "role not found" := by
  unfold roleGetByID
  rw [List.find?_eq_none.mpr (fun r hr => by simpa using h r hr)]

theorem permGetByID_ok {db : DB} {id : Int} {p : Permission}
    (h : permGetByID db id = .ok p) : p ∈ db.permissions ∧ p.id = id := by
  unfold permGetByID at h
  cases hf : db.permissions.find? (fun p => p.id = id) with
  | none => rw [hf] at h; cases h
  | some p' =>
    rw [hf] at h
    simp only [Except.ok.injEq] at h
    subst h
    exact ⟨List.mem_of_find?_eq_some hf, by simpa using List.find?_some hf⟩

theorem permGetByID_present {db : DB} {id : Int}
    (h : ∃ p ∈ db.permissions, p.id = id) :
    ∃ p, permGetByID db id = .ok p ∧ p ∈ db.permissions ∧ p.id = id := by
  unfold permGetByID
  cases hf : db.permissions.find? (fun p => p.id = id) with
  | none =>
    obtain ⟨p, hp, hid⟩ := h
    exact absurd (by simpa using List.find?_eq_none.mp hf p hp) (by simp [hid])
  | some p' =>
    exact ⟨p', rfl, List.mem_of_find?_eq_some hf, by simpa using List.find?_some hf⟩

theorem roleGetByName_present {db : DB} {name : String}
    (h : ∃ r ∈ db.roles, r.role_name = name) :
    ∃ r, roleGetByName db name = .ok r ∧ r ∈ db.roles ∧ r.role_name = name := by
  unfold roleGetByName
  cases hf : db.roles.find? (fun r => r.role_name = name) with
  | none =>
    obtain ⟨r, hr, hn⟩ := h
    exact absurd (by simpa using List.find?_eq_none.mp hf r hr) (by simp [hn])
  | some r' =>
    exact ⟨r', rfl, List.mem_of_find?_eq_some hf, by simpa using List.find?_some hf⟩

theorem permGetByName_present {db : DB} {name : String}
    (h : ∃ p ∈ db.permissions, p.permission_name = name) :
    ∃ p, permGetByName db name = .ok p ∧ p ∈ db.permissions ∧ p.permission_name = name := by
  unfold permGetByName
  cases hf : db.permissions.find? (fun p => p.permission_name = name) with
  | none =>
    obtain ⟨p, hp, hn⟩ := h
    exact absurd (by simpa using List.find?_eq_none.mp hf p hp) (by simp [hn])
  | some p' =>
    exact ⟨p', rfl, List.mem_of_find?_eq_some hf, by simpa using List.find?_some hf⟩

theorem permGetByName_absent {db : DB} {name : String}
    (h : ∀ p ∈ db.permissions, p.permission_name ≠ name) :
    permGetByName db name = .error "permission not found" := by
  unfold permGetByName
  rw [List.find?_eq_none.mpr (fun p hp => by simpa using h p hp)]

/-! ### Edge-insert helper lemmas -/

theorem rbacAssignRoleToUser_users (db : DB) (a b : Int) :
    (rbacAssignRoleToUser db a b).users = db.users := by
  unfold rbacAssignRoleToUser
  split <;> rfl

theorem rbacAssignRoleToUser_roles (db : DB) (a b : Int) :
    (rbacAssignRoleToUser db a b).roles = db.roles := by
  unfold rbacAssignRoleToUser
  split <;> rfl

theorem rbacAssignRoleToUser_mem (db : DB) (a b : Int) :
    (a, b) ∈ (rbacAssignRoleToUser db a b).user_roles := by
  unfold rbacAssignRoleToUser
  split
  · assumption
  · simp

theorem rbacAssignRoleToUser_nodup (db : DB) (a b : Int)
    (h : db.user_roles.Nodup) : (rbacAssignRoleToUser db a b).user_roles.Nodup := by
  unfold rbacAssignRoleToUser
  split
  · exact h
  · simp only [List.nodup_append, List.nodup_singleton, true_and]
    exact ⟨h, by simpa using fun hmem => by simp_all⟩

theorem rbacAssignRoleToUser_idem (db : DB) (a b : Int) :
    rbacAssignRoleToUser (rbacAssignRoleToUser db a b) a b = rbacAssignRoleToUser db a b := by
  show (if (a, b) ∈ (rbacAssignRoleToUser db a b).user_roles then rbacAssignRoleToUser db a b
    else { rbacAssignRoleToUser db a b with
      user_roles := (rbacAssignRoleToUser db a b).user_roles ++ [(a, b)] }) =
    rbacAssignRoleToUser db a b
  rw [if_pos (rbacAssignRoleToUser_mem db a b)]

theorem rbacAssignPermissionToRole_roles (db : DB) (a b : Int) :
    (rbacAssignPermissionToRole db a b).roles = db.roles := by
  unfold rbacAssignPermissionToRole
  split <;> rfl

theorem rbacAssignPermissionToRole_permissions (db : DB) (a b : Int) :
    (rbacAssignPermissionToRole db a b).permissions = db.permissions := by
  unfold rbacAssignPermissionToRole
  split <;> rfl

theorem rbacAssignPermissionToRole_mem (db : DB) (a b : Int) :
    (a, b) ∈ (rbacAssignPermissionToRole db a b).role_permissions := by
  unfold rbacAssignPermissionToRole
  split
  · assumption
  · simp

theorem rbacAssignPermissionToRole_nodup (db : DB) (a b : Int)
    (h : db.role_permissions.Nodup) :
    (rbacAssignPermissionToRole db a b).role_permissions.Nodup := by
  unfold rbacAssignPermissionToRole
  split
  · exact h
  · simp only [List.nodup_append, List.nodup_singleton, true_and]
    exact ⟨h, by simpa using fun hmem => by simp_all⟩

theorem rbacAssignPermissionToRole_idem (db : DB) (a b : Int) :
    rbacAssignPermissionToRole (rbacAssignPermissionToRole db a b) a b =
      rbacAssignPermissionToRole db a b := by
  show (if (a, b) ∈ (rbacAssignPermissionToRole db a b).role_permissions then
      rbacAssignPermissionToRole db a b
    else { rbacAssignPermissionToRole db a b with
      role_permissions := (rbacAssignPermissionToRole db a b).role_permissions ++ [(a, b)] }) =
    rbacAssignPermissionToRole db a b
  rw [if_pos (rbacAssignPermissionToRole_mem db a b)]

/-! ### Counting helper lemmas -/

theorem filter_eq_length_one {α : Type} [DecidableEq α] (a : α) :
    ∀ l : List α, l.Nodup → a ∈ l → (l.filter (fun e => e = a)).length = 1
  | [], _, h => absurd h (List.not_mem_nil a)
  | b :: l, hnd, h => by
    rcases List.nodup_cons.mp hnd with ⟨hbl, hl⟩
    rw [List.filter_cons]
    by_cases hba : b = a
    · subst hba
      rw [if_pos (by simp)]
      have hz : (l.filter (fun e => e = b)).length = 0 := by
        rw [List.length_eq_zero, List.filter_eq_nil_iff]
        intro e he
        simp only [decide_eq_true_eq]
        exact fun hebe => hbl (hebe ▸ he)
      simp [hz]
    · rw [if_neg (by simpa using hba)]
      rcases List.mem_cons.mp h with rfl | hal
      · exact absurd rfl hba
      · exact filter_eq_length_one a l hl hal

theorem length_filter_lt {α : Type} (p : α → Bool) :
    ∀ l : List α, ∀ x ∈ l, p x = false → (l.filter p).length < l.length
  | [], x, hx, _ => absurd hx (List.not_mem_nil x)
  | b :: l, x, hx, hpx => by
    rw [List.filter_cons, List.length_cons]
    rcases List.mem_cons.mp hx with rfl | hxl
    · rw [if_neg (by simp [hpx])]
      exact Nat.lt_succ_of_le (List.length_filter_le p l)
    · by_cases hb : p b = true
      · rw [if_pos hb]
        simpa using Nat.succ_lt_succ (length_filter_lt p l x hxl hpx)
      · rw [if_neg hb]
        exact Nat.lt_succ_of_lt (length_filter_lt p l x hxl hpx)

/-! ### The claims -/

/-- **C1**: for every user `U`, `GetUserPermissions U` equals the deduplicated
(by permission identity) union, over the roles `r` returned by
`GetUserRoles U`, of `GetRolePermissions r`, and the result is ordered by
`(resource, action)` ascending: under the schema constraints the result has no
duplicates, consecutive elements are in `(resource, action)` order, and its
members are exactly the permissions granted through some held role. -/
theorem C1_user_permissions_dedup_union (db : DB) (userID : Int)
    (hOK : SchemaOK db) :
    (rbacGetUserPermissions db userID).Nodup ∧
    List.Chain' (fun p q => permResActLe p q = true) (rbacGetUserPermissions db userID) ∧
    (∀ p : Permission, p ∈ rbacGetUserPermissions db userID ↔
      ∃ r ∈ rbacGetUserRoles db userID, p ∈ roleGetRolePermissions db r.id) := by
  obtain ⟨-, -, -, -, -, -, -, -, -, -, -, -, -, hfkRole, -, -⟩ := hOK
  refine ⟨?_, ?_, ?_⟩
  · unfold rbacGetUserPermissions
    exact nodup_sortBy _ _ (List.nodup_dedup _)
  · unfold rbacGetUserPermissions
    exact chain_sortBy permResActLe permResActLe_total _
  · intro p
    rw [mem_rbacGetUserPermissions]
    constructor
    · rintro ⟨hp, rp, hrp, hU, hid⟩
      obtain ⟨r, hr, hrid⟩ := hfkRole (userID, rp.1) hU
      refine ⟨r, ?_, ?_⟩
      · rw [mem_rbacGetUserRoles]
        exact ⟨hr, by rw [hrid]; exact hU⟩
      · rw [mem_roleGetRolePermissions]
        refine ⟨hp, ?_⟩
        have he : (r.id, p.id) = rp := by rw [hrid, ← hid]
        rw [he]
        exact hrp
    · rintro ⟨r, hrmem, hpmem⟩
      rw [mem_rbacGetUserRoles] at hrmem
      rw [mem_roleGetRolePermissions] at hpmem
      exact ⟨hpmem.1, (r.id, p.id), hpmem.2, hrmem.2, rfl⟩

/-- Store with one user (id 1) holding two roles: role 1 grants permissions 1
and 2, role 2 grants permissions 1 and 3 — the shared permission 1 must be
reported once. -/
def unionExampleDB : DB :=
  { users := [{ id := 1, email := "alice@example.com", password := "h", name := "Alice" }],
    roles := [{ id := 1, role_name := "admin", description := "" },
              { id := 2, role_name := "editor", description := "" }],
    permissions :=
      [{ id := 1, permission_name := "users.read", resource := "users", action := "read", description := "" },
       { id := 2, permission_name := "users.create", resource := "users", action := "create", description := "" },
       { id := 3, permission_name := "posts.read", resource := "posts", action := "read", description := "" }],
    user_roles := [(1, 1), (1, 2)],
    role_permissions := [(1, 1), (1, 2), (2, 1), (2, 3)] }

/-- Witness for C1, on the two-roles-sharing-one-permission store: the result
has 3 elements, not 4. -/
theorem C1_witness :
    SchemaOK unionExampleDB ∧
    ((rbacGetUserPermissions unionExampleDB 1).Nodup ∧
      List.Chain' (fun p q => permResActLe p q = true) (rbacGetUserPermissions unionExampleDB 1) ∧
      (∀ p : Permission, p ∈ rbacGetUserPermissions unionExampleDB 1 ↔
        ∃ r ∈ rbacGetUserRoles unionExampleDB 1, p ∈ roleGetRolePermissions unionExampleDB r.id)) ∧
    (rbacGetUserPermissions unionExampleDB 1).length = 3 :=
  ⟨by decide, C1_user_permissions_dedup_union unionExampleDB 1 (by decide), by decide⟩

/-- Store where user 1 holds the role stored under the normalized name
`"admin"`. -/
def storedAdminDB : DB :=
  { users := [{ id := 1, email := "alice@example.com", password := "h", name := "Alice" }],
    roles := [{ id := 1, role_name := "admin", description := "" }],
    permissions := [], user_roles := [(1, 1)], role_permissions := [] }

/-- When the request passes validation and both endpoints exist, the assign
service reaches the repository insert. -/
theorem svcAssignRoleToUser_ok (db : DB) (req : AssignRoleRequest)
    (hpos1 : 0 < req.user_id) (hpos2 : 0 < req.role_id)
    (hu : ∃ u ∈ db.users, u.id = req.user_id)
    (hr : ∃ r ∈ db.roles, r.id = req.role_id) :
    svcAssignRoleToUser db req =
      (.ok (), rbacAssignRoleToUser db req.user_id req.role_id) := by
  have hv : validAssignRoleRequest req = true := by
    unfold validAssignRoleRequest
    simp [hpos1, hpos2]
  obtain ⟨u, huOk, -⟩ := userGetByID_present hu
  obtain ⟨r, hrOk, -⟩ := roleGetByID_present hr
  simp only [svcAssignRoleToUser, hv, Bool.not_true, Bool.false_eq_true, if_false, huOk, hrOk]

/-- Permission analogue of `svcAssignRoleToUser_ok`. -/
theorem svcAssignPermissionToRole_ok (db : DB) (req : AssignPermissionRequest)
    (hpos1 : 0 < req.role_id) (hpos2 : 0 < req.permission_id)
    (hr : ∃ r ∈ db.roles, r.id = req.role_id)
    (hp : ∃ p ∈ db.permissions, p.id = req.permission_id) :
    svcAssignPermissionToRole db req =
      (.ok (), rbacAssignPermissionToRole db req.role_id req.permission_id) := by
  have hv : validAssignPermissionRequest req = true := by
    unfold validAssignPermissionRequest
    simp [hpos1, hpos2]
  obtain ⟨r, hrOk, -⟩ := roleGetByID_present hr
  obtain ⟨p, hpOk, -⟩ := permGetByID_present hp
  simp only [svcAssignPermissionToRole, hv, Bool.not_true, Bool.false_eq_true, if_false,
    hrOk, hpOk]

/-- **C4** is false as universally stated: with an existing user 1 and the
nonexistent role id 0, `AssignRoleToUser` returns the request-validation error
(the `gt=0` tag fires first), not a NotFound error — though still no edge is
written. -/
theorem C4_counterexample :
    (∀ r ∈ storedAdminDB.roles, r.id ≠ (0 : Int)) ∧
    svcAssignRoleToUser storedAdminDB { user_id := 1, role_id := 0 } =
      (.error "validation failed", storedAdminDB) ∧
    svcAssignRoleToUser storedAdminDB { user_id := 1, role_id := 0 } ≠
      (.error "user not found", storedAdminDB) ∧
    svcAssignRoleToUser storedAdminDB { user_id := 1, role_id := 0 } ≠
      (.error "role not found", storedAdminDB) := by
  decide

/-- **C4** (amended): for every userID and roleID that pass request validation
(both strictly positive — non-positive ids are rejected earlier with a
validation error and likewise write no edge), `AssignRoleToUser` verifies that
both the user and the role exist, returns a NotFound error (`"user not found"`
or `"role not found"`) when either is absent, and in that failure case writes
no UserRole edge — the store, hence `GetUserRoles`, is unchanged. -/
theorem C4_assign_missing_endpoint_not_found (db : DB) (req : AssignRoleRequest)
    (hpos1 : 0 < req.user_id) (hpos2 : 0 < req.role_id)
    (habsent : (∀ u ∈ db.users, u.id ≠ req.user_id) ∨ (∀ r ∈ db.roles, r.id ≠ req.role_id)) :
    (svcAssignRoleToUser db req = (.error "user not found", db) ∨
     svcAssignRoleToUser db req = (.error "role not found", db)) ∧
    rbacGetUserRoles (svcAssignRoleToUser db req).2 req.user_id =
      rbacGetUserRoles db req.user_id := by
  have hv : validAssignRoleRequest req = true := by
    unfold validAssignRoleRequest
    simp [hpos1, hpos2]
  rcases habsent with hU | hR
  · have h1 : svcAssignRoleToUser db req = (.error "user not found", db) := by
      simp only [svcAssignRoleToUser, hv, Bool.not_true, Bool.false_eq_true, if_false,
        userGetByID_absent hU]
    rw [h1]
    exact ⟨.inl rfl, rfl⟩
  · cases hUres : userGetByID db req.user_id with
    | error e =>
      have h1 : svcAssignRoleToUser db req = (.error "user not found", db) := by
        simp only [svcAssignRoleToUser, hv, Bool.not_true, Bool.false_eq_true, if_false, hUres]
      rw [h1]
      exact ⟨.inl rfl, rfl⟩
    | ok u =>
      have h1 : svcAssignRoleToUser db req = (.error "role not found", db) := by
        simp only [svcAssignRoleToUser, hv, Bool.not_true, Bool.false_eq_true, if_false, hUres,
          roleGetByID_absent hR]
      rw [h1]
      exact ⟨.inr rfl, rfl⟩

/-- Witness for C4 (amended): assigning the nonexistent role id 999 to the
existing user 1 yields NotFound and leaves `GetUserRoles` unchanged. -/
theorem C4_witness :
    (0 < (1 : Int) ∧ 0 < (999 : Int) ∧ ∀ r ∈ storedAdminDB.roles, r.id ≠ (999 : Int)) ∧
    ((svcAssignRoleToUser storedAdminDB { user_id := 1, role_id := 999 } =
        (.error "user not found", storedAdminDB) ∨
      svcAssignRoleToUser storedAdminDB { user_id := 1, role_id := 999 } =
        (.error "role not found", storedAdminDB)) ∧
     rbacGetUserRoles (svcAssignRoleToUser storedAdminDB { user_id := 1, role_id := 999 }).2 1 =
       rbacGetUserRoles storedAdminDB 1) :=
  ⟨⟨by decide, by decide, by decide⟩,
    C4_assign_missing_endpoint_not_found storedAdminDB { user_id := 1, role_id := 999 }
      (by decide) (by decide) (.inr (by decide))⟩

/-- **C5**: assigning an existing role to an existing user twice succeeds both
times (the duplicate is success, not a Conflict) and leaves exactly one
UserRole edge for the pair; the same idempotence holds for
`AssignPermissionToRole` on a (role, permission) pair. -/
theorem C5_assign_twice_one_edge (db : DB) (reqR : AssignRoleRequest)
    (reqP : AssignPermissionRequest) (hOK : SchemaOK db)
    (hu : ∃ u ∈ db.users, u.id = reqR.user_id)
    (hr : ∃ r ∈ db.roles, r.id = reqR.role_id)
    (hr2 : ∃ r ∈ db.roles, r.id = reqP.role_id)
    (hp : ∃ p ∈ db.permissions, p.id = reqP.permission_id) :
    ((svcAssignRoleToUser db reqR).1 = .ok () ∧
     (svcAssignRoleToUser (svcAssignRoleToUser db reqR).2 reqR).1 = .ok () ∧
     ((svcAssignRoleToUser (svcAssignRoleToUser db reqR).2 reqR).2.user_roles.filter
        (fun e => e = (reqR.user_id, reqR.role_id))).length = 1) ∧
    ((svcAssignPermissionToRole db reqP).1 = .ok () ∧
     (svcAssignPermissionToRole (svcAssignPermissionToRole db reqP).2 reqP).1 = .ok () ∧
     ((svcAssignPermissionToRole (svcAssignPermissionToRole db reqP).2 reqP).2.role_permissions.filter
        (fun e => e = (reqP.role_id, reqP.permission_id))).length = 1) := by
  obtain ⟨hUpos, hRpos, hPpos, -, -, -, -, -, -, -, hURnd, hRPnd, -, -, -, -⟩ := hOK
  constructor
  · obtain ⟨u, huMem, huId⟩ := hu
    obtain ⟨r, hrMem, hrId⟩ := hr
    have hpos1 : 0 < reqR.user_id := huId ▸ hUpos u huMem
    have hpos2 : 0 < reqR.role_id := hrId ▸ hRpos r hrMem
    have hcall1 := svcAssignRoleToUser_ok db reqR hpos1 hpos2 ⟨u, huMem, huId⟩ ⟨r, hrMem, hrId⟩
    have hcall2 := svcAssignRoleToUser_ok (rbacAssignRoleToUser db reqR.user_id reqR.role_id)
      reqR hpos1 hpos2
      ⟨u, by rw [rbacAssignRoleToUser_users]; exact huMem, huId⟩
      ⟨r, by rw [rbacAssignRoleToUser_roles]; exact hrMem, hrId⟩
    simp only [hcall1, hcall2, rbacAssignRoleToUser_idem]
    refine ⟨by trivial, by trivial, ?_⟩
    exact filter_eq_length_one _ _ (rbacAssignRoleToUser_nodup db _ _ hURnd)
      (rbacAssignRoleToUser_mem db _ _)
  · obtain ⟨r, hrMem, hrId⟩ := hr2
    obtain ⟨p, hpMem, hpId⟩ := hp
    have hpos1 : 0 < reqP.role_id := hrId ▸ hRpos r hrMem
    have hpos2 : 0 < reqP.permission_id := hpId ▸ hPpos p hpMem
    have hcall1 := svcAssignPermissionToRole_ok db reqP hpos1 hpos2
      ⟨r, hrMem, hrId⟩ ⟨p, hpMem, hpId⟩
    have hcall2 := svcAssignPermissionToRole_ok
      (rbacAssignPermissionToRole db reqP.role_id reqP.permission_id) reqP hpos1 hpos2
      ⟨r, by rw [rbacAssignPermissionToRole_roles]; exact hrMem, hrId⟩
      ⟨p, by rw [rbacAssignPermissionToRole_permissions]; exact hpMem, hpId⟩
    simp only [hcall1, hcall2, rbacAssignPermissionToRole_idem]
    refine ⟨by trivial, by trivial, ?_⟩
    exact filter_eq_length_one _ _ (rbacAssignPermissionToRole_nodup db _ _ hRPnd)
      (rbacAssignPermissionToRole_mem db _ _)

/-- Witness for C5 on a concrete store: user 1 and role 1, role 1 and
permission 1. -/
theorem C5_witness :
    SchemaOK unionExampleDB ∧
    (((svcAssignRoleToUser unionExampleDB { user_id := 1, role_id := 1 }).1 = .ok () ∧
      (svcAssignRoleToUser (svcAssignRoleToUser unionExampleDB { user_id := 1, role_id := 1 }).2
        { user_id := 1, role_id := 1 }).1 = .ok () ∧
      ((svcAssignRoleToUser (svcAssignRoleToUser unionExampleDB { user_id := 1, role_id := 1 }).2
          { user_id := 1, role_id := 1 }).2.user_roles.filter
        (fun e => e = ((1 : Int), (1 : Int)))).length = 1) ∧
     ((svcAssignPermissionToRole unionExampleDB { role_id := 1, permission_id := 1 }).1 = .ok () ∧
      (svcAssignPermissionToRole
        (svcAssignPermissionToRole unionExampleDB { role_id := 1, permission_id := 1 }).2
        { role_id := 1, permission_id := 1 }).1 = .ok () ∧
      ((svcAssignPermissionToRole
          (svcAssignPermissionToRole unionExampleDB { role_id := 1, permission_id := 1 }).2
          { role_id := 1, permission_id := 1 }).2.role_permissions.filter
        (fun e => e = ((1 : Int), (1 : Int)))).length = 1)) :=
  ⟨by decide,
    C5_assign_twice_one_edge unionExampleDB { user_id := 1, role_id := 1 }
      { role_id := 1, permission_id := 1 } (by decide)
      (by decide) (by decide) (by decide) (by decide)⟩

/-- **C8**: assigning an existing role `R` to an existing user and then asking
`UserHasRole` with `R`'s stored (normalized) name returns `true`. -/
theorem C8_assign_then_has_role (db : DB) (req : AssignRoleRequest) (R : Role)
    (hOK : SchemaOK db)
    (hu : ∃ u ∈ db.users, u.id = req.user_id)
    (hR : R ∈ db.roles) (hid : R.id = req.role_id) :
    (svcAssignRoleToUser db req).1 = .ok () ∧
    rbacUserHasRole (svcAssignRoleToUser db req).2 req.user_id R.role_name = true := by
  obtain ⟨hUpos, hRpos, -⟩ := hOK
  obtain ⟨u, huMem, huId⟩ := hu
  have hpos1 : 0 < req.user_id := huId ▸ hUpos u huMem
  have hpos2 : 0 < req.role_id := hid ▸ hRpos R hR
  have hcall := svcAssignRoleToUser_ok db req hpos1 hpos2 ⟨u, huMem, huId⟩ ⟨R, hR, hid⟩
  rw [hcall]
  refine ⟨rfl, ?_⟩
  rw [rbacUserHasRole_iff]
  refine ⟨R, ?_, ?_, rfl⟩
  · rw [rbacAssignRoleToUser_roles]
    exact hR
  · rw [hid]
    exact rbacAssignRoleToUser_mem db req.user_id req.role_id

/-- Witness for C8: assign role 2 (stored name "editor") to user 1. -/
theorem C8_witness :
    SchemaOK unionExampleDB ∧
    ((svcAssignRoleToUser unionExampleDB { user_id := 1, role_id := 2 }).1 = .ok () ∧
     rbacUserHasRole (svcAssignRoleToUser unionExampleDB { user_id := 1, role_id := 2 }).2 1
       "editor" = true) :=
  ⟨by decide,
    C8_assign_then_has_role unionExampleDB { user_id := 1, role_id := 2 }
      { id := 2, role_name := "editor", description := "" }
      (by decide) (by decide) (by decide) (by decide)⟩

/-- **C2** is false on the code: user 1 holds the role stored as `"admin"`,
yet `UserHasRole` queried with `"Admin"` returns `false` — the repository
compares the query string exactly (`WHERE r.role_name = $2`) and applies no
normalization, so the result differs from querying with the trimmed,
lower-cased form. -/
theorem C2_counterexample :
    rbacUserHasRole storedAdminDB 1 "admin" = true ∧
    rbacUserHasRole storedAdminDB 1 (toLower (trimSpace "Admin")) = true ∧
    rbacUserHasRole storedAdminDB 1 "Admin" = false := by
  decide

/-- **C2** (amended): `UserHasRole` and `UserHasPermission` perform an exact
(case- and whitespace-sensitive) lookup of the query string against the stored
names: the user matches exactly when one of their roles (resp. one of the
permissions reachable through their roles) carries precisely that stored
string, and a plain `false` — not an error — is returned otherwise.  Since
names are normalized at write time, only the already-normalized query string
can match. -/
theorem C2_has_role_has_permission_exact (db : DB) (userID : Int) (name : String) :
    (rbacUserHasRole db userID name = true ↔
      ∃ r ∈ db.roles, (userID, r.id) ∈ db.user_roles ∧ r.role_name = name) ∧
    (rbacUserHasPermission db userID name = true ↔
      ∃ p ∈ db.permissions, ∃ roleID : Int, (userID, roleID) ∈ db.user_roles ∧
        (roleID, p.id) ∈ db.role_permissions ∧ p.permission_name = name) :=
  ⟨rbacUserHasRole_iff db userID name, rbacUserHasPermission_iff db userID name⟩

theorem roleGetByName_absent {db : DB} {name : String}
    (h : ∀ r ∈ db.roles, r.role_name ≠ name) :
    roleGetByName db name = .error "role not found" := by
  unfold roleGetByName
  rw [List.find?_eq_none.mpr (fun r hr => by simpa using h r hr)]

theorem map_id_of_mem {α : Type} :
    ∀ (l : List α) (f : α → α), (∀ a ∈ l, f a = a) → l.map f = l
  | [], _, _ => rfl
  | a :: l, f, h => by
    rw [List.map_cons, h a (List.mem_cons_self a l),
      map_id_of_mem l f (fun b hb => h b (List.mem_cons_of_mem a hb))]

/-- Store with a permission occupying the pair `(users, read)` under the name
`users.read`. -/
def raCollisionDB : DB :=
  { users := [], roles := [],
    permissions := [{ id := 1, permission_name := "users.read", resource := "users", action := "read", description := "" }],
    user_roles := [], role_permissions := [] }

/-- Request whose name is fresh but whose (resource, action) pair collides. -/
def raCollisionReq : CreatePermissionRequest :=
  { permission_name := "users.view", resource := "users", action := "read", description := "" }

/-- **C3** is false on the code: creating a permission whose (resource, action)
pair collides with an existing one while its name is fresh passes the service's
only pre-check (`GetByName`), so the insert is attempted and fails at the store
with the wrapped constraint error — not with the pre-check Conflict
`"permission already exists"`. -/
theorem C3_counterexample :
    svcCreatePermission raCollisionDB raCollisionReq =
      (.error "failed to create permission: duplicate key value violates unique constraint on permissions (resource, action)",
       raCollisionDB) ∧
    (svcCreatePermission raCollisionDB raCollisionReq).1 ≠
      .error "permission already exists" := by
  decide

/-- **C3** (amended): `CreatePermission` and `UpdatePermission` pre-check only
the `permission_name` axis (returning the Conflict errors
`"permission already exists"` / `"permission name already in use"` before any
mutation); a normalized (resource, action) collision is not pre-checked — the
insert/update is attempted and surfaces as a wrapped storage constraint error,
with the store unchanged. -/
theorem C3_only_name_axis_prechecked (db : DB) (id : Int)
    (reqC : CreatePermissionRequest) (reqU : UpdatePermissionRequest)
    (hOK : SchemaOK db) :
    (validCreatePermissionRequest reqC = true →
      (∃ p ∈ db.permissions, p.permission_name = normalizeName reqC.permission_name) →
      svcCreatePermission db reqC = (.error "permission already exists", db)) ∧
    (validCreatePermissionRequest reqC = true →
      (∀ p ∈ db.permissions, p.permission_name ≠ normalizeName reqC.permission_name) →
      (∃ p ∈ db.permissions, p.resource = normalizeName reqC.resource ∧
        p.action = normalizeName reqC.action) →
      svcCreatePermission db reqC =
        (.error "failed to create permission: duplicate key value violates unique constraint on permissions (resource, action)", db)) ∧
    (validUpdatePermissionRequest reqU = true →
      reqU.permission_name ≠ "" →
      (∃ p0, permGetByID db id = .ok p0) →
      (∃ q ∈ db.permissions, q.permission_name = normalizeName reqU.permission_name ∧
        q.id ≠ id) →
      svcUpdatePermission db id reqU = (.error "permission name already in use", db)) ∧
    (validUpdatePermissionRequest reqU = true →
      reqU.permission_name = "" → reqU.resource ≠ "" → reqU.action ≠ "" →
      ∀ p0, permGetByID db id = .ok p0 →
      (∃ q ∈ db.permissions, q.id ≠ id ∧ q.resource = normalizeName reqU.resource ∧
        q.action = normalizeName reqU.action) →
      svcUpdatePermission db id reqU =
        (.error "failed to update permission: duplicate key value violates unique constraint on permissions (resource, action)", db)) := by
  obtain ⟨-, -, -, -, -, -, -, -, hPermNames, -⟩ := hOK
  refine ⟨?_, ?_, ?_, ?_⟩
  · intro hv hdup
    obtain ⟨p, hfound, -⟩ := permGetByName_present hdup
    simp only [svcCreatePermission, hv, Bool.not_true, Bool.false_eq_true, if_false, hfound]
  · intro hv hname hra
    have hnone : permGetByName db (normalizeName reqC.permission_name) =
        .error "permission not found" :=
      permGetByName_absent (fun p hp => hname p hp)
    have hnameAny : (db.permissions.any
        (fun q => q.permission_name = normalizeName reqC.permission_name)) = false := by
      rw [List.any_eq_false]
      intro q hq
      simpa using hname q hq
    have hraAny : (db.permissions.any
        (fun q => (q.resource = normalizeName reqC.resource &&
          q.action = normalizeName reqC.action))) = true := by
      rw [List.any_eq_true]
      obtain ⟨p, hp, h1, h2⟩ := hra
      exact ⟨p, hp, by simp [h1, h2]⟩
    simp only [svcCreatePermission, hv, Bool.not_true, Bool.false_eq_true, if_false, hnone,
      permRepoCreate, hnameAny, hraAny, if_true]
    rfl
  · rintro hv hne ⟨p0, hp0⟩ ⟨q, hq, hqn, hqid⟩
    obtain ⟨q', hq'found, hq'mem, hq'name⟩ := permGetByName_present ⟨q, hq, hqn⟩
    have hq'q : q' = q :=
      List.inj_on_of_nodup_map hPermNames hq'mem hq (by rw [hq'name, hqn])
    subst hq'q
    simp only [svcUpdatePermission, hv, Bool.not_true, Bool.false_eq_true, if_false, hp0,
      if_pos hne, hq'found, if_pos hqid]
  · rintro hv hnameEmpty hres hact p0 hp0 ⟨q, hq, hqid, hqres, hqact⟩
    obtain ⟨hp0mem, hp0id⟩ := permGetByID_ok hp0
    have hcond1 : (db.permissions.all (fun q' => !(q'.id = p0.id))) = false := by
      rw [List.all_eq_false]
      exact ⟨p0, hp0mem, by simp⟩
    have hcond2 : (db.permissions.any (fun q' =>
        (!(q'.id = p0.id) && q'.permission_name = p0.permission_name))) = false := by
      rw [List.any_eq_false]
      intro q' hq'
      simp only [Bool.and_eq_true, Bool.not_eq_true', decide_eq_false_iff_not,
        decide_eq_true_eq, not_and]
      intro hne' heq
      exact hne' (congrArg Permission.id
        (List.inj_on_of_nodup_map hPermNames hq' hp0mem heq))
    have hcond3 : (db.permissions.any (fun q' =>
        (!(q'.id = p0.id) && q'.resource = normalizeName reqU.resource &&
          q'.action = normalizeName reqU.action))) = true := by
      rw [List.any_eq_true]
      refine ⟨q, hq, ?_⟩
      have : ¬(q.id = p0.id) := by rw [hp0id]; exact hqid
      simp [this, hqres, hqact]
    by_cases hdesc : reqU.description = ""
    · simp [svcUpdatePermission, hv, hp0, hnameEmpty, hres, hact, hdesc,
        permRepoUpdate, hcond1, hcond2, hcond3]
    · simp [svcUpdatePermission, hv, hp0, hnameEmpty, hres, hact, hdesc,
        permRepoUpdate, hcond1, hcond2, hcond3]

/-- Witness for C3 (amended): on a two-permission store, (a) a duplicate name
is pre-checked on create, and (d) an update steering permission 2 onto
permission 1's (resource, action) pair fails only at the store. -/
theorem C3_witness :
    SchemaOK unionExampleDB ∧
    (svcCreatePermission unionExampleDB
      { permission_name := "users.read", resource := "articles", action := "read",
        description := "" } = (.error "permission already exists", unionExampleDB)) ∧
    (svcUpdatePermission unionExampleDB 2
      { permission_name := "", resource := "posts", action := "read", description := "" } =
      (.error "failed to update permission: duplicate key value violates unique constraint on permissions (resource, action)",
       unionExampleDB)) := by
  refine ⟨by decide, ?_, ?_⟩
  · exact (C3_only_name_axis_prechecked unionExampleDB 2
      { permission_name := "users.read", resource := "articles", action := "read",
        description := "" }
      { permission_name := "", resource := "posts", action := "read", description := "" }
      (by decide)).1 (by decide) (by decide)
  · exact (C3_only_name_axis_prechecked unionExampleDB 2
      { permission_name := "users.read", resource := "articles", action := "read",
        description := "" }
      { permission_name := "", resource := "posts", action := "read", description := "" }
      (by decide)).2.2.2 (by decide) (by decide) (by decide) (by decide)
      { id := 2, permission_name := "users.create", resource := "users", action := "create",
        description := "" } (by decide) (by decide)

/-- **C6**: `RemoveRoleFromUser(U, R)` on a missing edge returns the NotFound
error `"user-role assignment not found"` and changes nothing; on an existing
edge it succeeds, removes exactly that edge (users/roles tables untouched), and
a subsequent `UserHasRole(U, R.role_name)` returns `false`. -/
theorem C6_remove_role_not_found_or_removes_edge (db : DB) (userID : Int) (R : Role)
    (hOK : SchemaOK db) (hR : R ∈ db.roles) :
    ((userID, R.id) ∉ db.user_roles →
      rbacRemoveRoleFromUser db userID R.id = (.error "user-role assignment not found", db)) ∧
    ((userID, R.id) ∈ db.user_roles →
      (rbacRemoveRoleFromUser db userID R.id).1 = .ok () ∧
      (∀ e : Int × Int, e ∈ (rbacRemoveRoleFromUser db userID R.id).2.user_roles ↔
        (e ∈ db.user_roles ∧ e ≠ (userID, R.id))) ∧
      (rbacRemoveRoleFromUser db userID R.id).2.users = db.users ∧
      (rbacRemoveRoleFromUser db userID R.id).2.roles = db.roles ∧
      rbacUserHasRole (rbacRemoveRoleFromUser db userID R.id).2 userID R.role_name = false) := by
  obtain ⟨-, -, -, -, -, -, -, hNames, -⟩ := hOK
  constructor
  · intro hnot
    have hall : db.user_roles.filter (fun e => !(e.1 = userID ∧ e.2 = R.id)) =
        db.user_roles := by
      rw [List.filter_eq_self]
      intro e he
      simp only [Bool.not_eq_true', decide_eq_false_iff_not]
      rintro ⟨h1, h2⟩
      have heq : (userID, R.id) = e := by rw [← h1, ← h2]
      exact hnot (heq ▸ he)
    unfold rbacRemoveRoleFromUser
    rw [hall, Nat.sub_self, if_pos rfl]
  · intro hmem
    have hlt : (db.user_roles.filter (fun e => !(e.1 = userID ∧ e.2 = R.id))).length <
        db.user_roles.length :=
      length_filter_lt _ db.user_roles (userID, R.id) hmem (by simp)
    have hcond : ¬(db.user_roles.length -
        (db.user_roles.filter (fun e => !(e.1 = userID ∧ e.2 = R.id))).length = 0) :=
      Nat.sub_ne_zero_of_lt hlt
    have hres : rbacRemoveRoleFromUser db userID R.id =
        (.ok (), { db with user_roles :=
          db.user_roles.filter (fun e => !(e.1 = userID ∧ e.2 = R.id)) }) := by
      unfold rbacRemoveRoleFromUser
      rw [if_neg hcond]
    rw [hres]
    refine ⟨rfl, ?_, rfl, rfl, ?_⟩
    · intro e
      simp only [List.mem_filter, Bool.not_eq_true', decide_eq_false_iff_not]
      constructor
      · rintro ⟨he, hne⟩
        refine ⟨he, ?_⟩
        intro heq
        exact hne (by rw [heq]; exact ⟨rfl, rfl⟩)
      · rintro ⟨he, hne⟩
        refine ⟨he, ?_⟩
        rintro ⟨h1, h2⟩
        exact hne (Prod.ext h1 h2)
    · rw [Bool.eq_false_iff]
      intro htrue
      rw [rbacUserHasRole_iff] at htrue
      obtain ⟨r, hrMem, hEdge, hName⟩ := htrue
      have hrR : r = R := List.inj_on_of_nodup_map hNames hrMem hR hName
      subst hrR
      rw [List.mem_filter] at hEdge
      simp at hEdge

/-- Witness for C6: user 1 holds role 1 (`"admin"`); the present edge (1, 1)
is removed, `UserHasRole` turns false, and an absent edge would error. -/
theorem C6_witness :
    SchemaOK storedAdminDB ∧
    ((1, (1 : Int)) ∈ storedAdminDB.user_roles) ∧
    (((1, (1 : Int)) ∉ storedAdminDB.user_roles →
      rbacRemoveRoleFromUser storedAdminDB 1 1 =
        (.error "user-role assignment not found", storedAdminDB)) ∧
     ((1, (1 : Int)) ∈ storedAdminDB.user_roles →
      (rbacRemoveRoleFromUser storedAdminDB 1 1).1 = .ok () ∧
      (∀ e : Int × Int, e ∈ (rbacRemoveRoleFromUser storedAdminDB 1 1).2.user_roles ↔
        (e ∈ storedAdminDB.user_roles ∧ e ≠ (1, 1))) ∧
      (rbacRemoveRoleFromUser storedAdminDB 1 1).2.users = storedAdminDB.users ∧
      (rbacRemoveRoleFromUser storedAdminDB 1 1).2.roles = storedAdminDB.roles ∧
      rbacUserHasRole (rbacRemoveRoleFromUser storedAdminDB 1 1).2 1 "admin" = false)) :=
  ⟨by decide, by decide,
    C6_remove_role_not_found_or_removes_edge storedAdminDB 1
      { id := 1, role_name := "admin", description := "" } (by decide) (by decide)⟩

/-- **C7**: `CreateRole` normalizes the requested name (trim + lowercase)
before the uniqueness check, so whenever a role already carries the normalized
form of the requested name — e.g. creating `" Admin "` while `"admin"` exists —
the service returns the Conflict error `"role already exists"` and the store is
unchanged (no role created). -/
theorem C7_create_role_normalized_conflict (db : DB) (req : CreateRoleRequest)
    (hv : validCreateRoleRequest req = true)
    (hdup : ∃ r ∈ db.roles, r.role_name = normalizeName req.role_name) :
    svcCreateRole db req = (.error "role already exists", db) := by
  obtain ⟨r, hfound, -⟩ := roleGetByName_present hdup
  simp only [svcCreateRole, hv, Bool.not_true, Bool.false_eq_true, if_false, hfound]

/-- Witness for C7: store holds `"admin"`, request name is `" Admin "`
(which normalizes to `"admin"`). -/
theorem C7_witness :
    (validCreateRoleRequest { role_name := " Admin ", description := "second" } = true ∧
     normalizeName " Admin " = "admin" ∧
     ∃ r ∈ storedAdminDB.roles, r.role_name = normalizeName " Admin ") ∧
    svcCreateRole storedAdminDB { role_name := " Admin ", description := "second" } =
      (.error "role already exists", storedAdminDB) :=
  ⟨⟨by decide, by decide, by decide⟩,
    C7_create_role_normalized_conflict storedAdminDB
      { role_name := " Admin ", description := "second" } (by decide) (by decide)⟩

/-- **C9**: `GetRoleUsers` returns exactly the users holding the role, ordered
by user name ascending, and every returned record has an empty credential-hash
(`Password`) field regardless of the stored hash. -/
theorem C9_role_users_sorted_password_stripped (db : DB) (roleID : Int) :
    (∀ u : User, u ∈ roleGetRoleUsers db roleID ↔
      ∃ u' ∈ db.users, (u'.id, roleID) ∈ db.user_roles ∧ u = { u' with password := "" }) ∧
    (∀ u ∈ roleGetRoleUsers db roleID, u.password = "") ∧
    List.Chain' (fun a b => userNameLe a b = true) (roleGetRoleUsers db roleID) := by
  refine ⟨?_, ?_, ?_⟩
  · intro u
    unfold roleGetRoleUsers
    rw [List.mem_map]
    constructor
    · rintro ⟨u', hu', rfl⟩
      rw [mem_sortBy, List.mem_filter, decide_eq_true_eq] at hu'
      exact ⟨u', hu'.1, hu'.2, rfl⟩
    · rintro ⟨u', hu', hmem, rfl⟩
      refine ⟨u', ?_, rfl⟩
      rw [mem_sortBy, List.mem_filter, decide_eq_true_eq]
      exact ⟨hu', hmem⟩
  · intro u hu
    unfold roleGetRoleUsers at hu
    rw [List.mem_map] at hu
    obtain ⟨u', -, rfl⟩ := hu
    rfl
  · unfold roleGetRoleUsers
    rw [List.chain'_map]
    exact chain_sortBy userNameLe userNameLe_total _

/-! ### Update-service helper lemmas (used for C10) -/

/-- Both `UpdateRole` fields empty: complete no-op up to the returned value. -/
theorem updRole_all_empty (db : DB) (id : Int) (req : UpdateRoleRequest) (r0 : Role)
    (hIds : (db.roles.map Role.id).Nodup) (hNames : (db.roles.map Role.role_name).Nodup)
    (h0 : roleGetByID db id = .ok r0)
    (hname : req.role_name = "") (hdesc : req.description = "") :
    svcUpdateRole db id req = (.ok r0, db) := by
  obtain ⟨hr0mem, hr0id⟩ := roleGetByID_ok h0
  have hv : validUpdateRoleRequest req = true := by
    simp [validUpdateRoleRequest, hname, hdesc]
  have hcond1 : (db.roles.all (fun x => !(x.id = r0.id))) = false := by
    rw [List.all_eq_false]
    exact ⟨r0, hr0mem, by simp⟩
  have hcond2 : (db.roles.any (fun x => (!(x.id = r0.id) && x.role_name = r0.role_name))) = false := by
    rw [List.any_eq_false]
    intro x hx
    simp only [Bool.and_eq_true, Bool.not_eq_true', decide_eq_false_iff_not,
      decide_eq_true_eq, not_and]
    intro hne heq
    exact hne (congrArg Role.id (List.inj_on_of_nodup_map hNames hx hr0mem heq))
  have hmapid : db.roles.map (fun x => if x.id = r0.id then r0 else x) = db.roles :=
    map_id_of_mem _ _ (fun x hx => by
      by_cases hxe : x.id = r0.id
      · have hx0 : x = r0 := List.inj_on_of_nodup_map hIds hx hr0mem hxe
        rw [if_pos hxe, hx0]
      · rw [if_neg hxe])
  simp [svcUpdateRole, hv, h0, hname, hdesc, roleRepoUpdate, hcond1, hcond2, hmapid]

/-- `UpdateRole` with an empty name and a provided description: the stored and
returned role keep the previous name. -/
theorem updRole_desc_only (db : DB) (id : Int) (req : UpdateRoleRequest) (r0 : Role)
    (hNames : (db.roles.map Role.role_name).Nodup)
    (h0 : roleGetByID db id = .ok r0)
    (hname : req.role_name = "") (hdesc : req.description ≠ "")
    (hlen : req.description.length ≤ 500) :
    svcUpdateRole db id req =
      (.ok { r0 with description := req.description },
       { db with roles := db.roles.map (fun x =>
          if x.id = r0.id then { r0 with description := req.description } else x) }) := by
  obtain ⟨hr0mem, hr0id⟩ := roleGetByID_ok h0
  have hv : validUpdateRoleRequest req = true := by
    simp [validUpdateRoleRequest, hname, hlen]
  have hcond1 : (db.roles.all (fun x => !(x.id = r0.id))) = false := by
    rw [List.all_eq_false]
    exact ⟨r0, hr0mem, by simp⟩
  have hcond2 : (db.roles.any (fun x => (!(x.id = r0.id) && x.role_name = r0.role_name))) = false := by
    rw [List.any_eq_false]
    intro x hx
    simp only [Bool.and_eq_true, Bool.not_eq_true', decide_eq_false_iff_not,
      decide_eq_true_eq, not_and]
    intro hne heq
    exact hne (congrArg Role.id (List.inj_on_of_nodup_map hNames hx hr0mem heq))
  simp [svcUpdateRole, hv, h0, hname, hdesc, roleRepoUpdate, hcond1, hcond2]

/-- `UpdateRole` with a fresh provided name and an empty description: the
stored and returned role keep the previous description. -/
theorem updRole_name_only (db : DB) (id : Int) (req : UpdateRoleRequest) (r0 : Role)
    (h0 : roleGetByID db id = .ok r0)
    (hlen2 : 2 ≤ req.role_name.length) (hlen100 : req.role_name.length ≤ 100)
    (hdesc : req.description = "")
    (hfresh : ∀ r' ∈ db.roles, r'.role_name ≠ normalizeName req.role_name) :
    svcUpdateRole db id req =
      (.ok { r0 with role_name := normalizeName req.role_name },
       { db with roles := db.roles.map (fun x =>
          if x.id = r0.id then { r0 with role_name := normalizeName req.role_name } else x) }) := by
  obtain ⟨hr0mem, hr0id⟩ := roleGetByID_ok h0
  have hnne : req.role_name ≠ "" := by
    intro he
    rw [he] at hlen2
    simp at hlen2
  have hv : validUpdateRoleRequest req = true := by
    simp [validUpdateRoleRequest, hlen2, hlen100, hdesc]
  have hfind : roleGetByName db (normalizeName req.role_name) = .error "role not found" :=
    roleGetByName_absent hfresh
  have hcond1 : (db.roles.all (fun x => !(x.id = r0.id))) = false := by
    rw [List.all_eq_false]
    exact ⟨r0, hr0mem, by simp⟩
  have hcond2 : (db.roles.any (fun x =>
      (!(x.id = r0.id) && x.role_name = normalizeName req.role_name))) = false := by
    rw [List.any_eq_false]
    intro x hx
    simp only [Bool.and_eq_true, Bool.not_eq_true', decide_eq_false_iff_not,
      decide_eq_true_eq, not_and]
    intro hne heq
    exact hfresh x hx heq
  simp [svcUpdateRole, hv, h0, hnne, hdesc, hfind, roleRepoUpdate, hcond1, hcond2]

/-- All four `UpdatePermission` fields empty: complete no-op. -/
theorem updPerm_all_empty (db : DB) (id : Int) (req : UpdatePermissionRequest) (p0 : Permission)
    (hIds : (db.permissions.map Permission.id).Nodup)
    (hNames : (db.permissions.map Permission.permission_name).Nodup)
    (hRA : (db.permissions.map (fun p => (p.resource, p.action))).Nodup)
    (h0 : permGetByID db id = .ok p0)
    (hname : req.permission_name = "") (hres : req.resource = "")
    (hact : req.action = "") (hdesc : req.description = "") :
    svcUpdatePermission db id req = (.ok p0, db) := by
  obtain ⟨hp0mem, hp0id⟩ := permGetByID_ok h0
  have hv : validUpdatePermissionRequest req = true := by
    simp [validUpdatePermissionRequest, hname, hres, hact, hdesc]
  have hcond1 : (db.permissions.all (fun x => !(x.id = p0.id))) = false := by
    rw [List.all_eq_false]
    exact ⟨p0, hp0mem, by simp⟩
  have hcond2 : (db.permissions.any (fun x =>
      (!(x.id = p0.id) && x.permission_name = p0.permission_name))) = false := by
    rw [List.any_eq_false]
    intro x hx
    simp only [Bool.and_eq_true, Bool.not_eq_true', decide_eq_false_iff_not,
      decide_eq_true_eq, not_and]
    intro hne heq
    exact hne (congrArg Permission.id (List.inj_on_of_nodup_map hNames hx hp0mem heq))
  have hcond3 : (db.permissions.any (fun x =>
      (!(x.id = p0.id) && x.resource = p0.resource && x.action = p0.action))) = false := by
    rw [List.any_eq_false]
    intro x hx
    simp only [Bool.and_eq_true, Bool.not_eq_true', decide_eq_false_iff_not,
      decide_eq_true_eq, not_and]
    intro hne h1
    refine hne.1 (congrArg Permission.id
      (List.inj_on_of_nodup_map hRA hx hp0mem ?_))
    show (x.resource, x.action) = (p0.resource, p0.action)
    rw [hne.2, h1]
  have hmapid : db.permissions.map (fun x => if x.id = p0.id then p0 else x) =
      db.permissions :=
    map_id_of_mem _ _ (fun x hx => by
      by_cases hxe : x.id = p0.id
      · have hx0 : x = p0 := List.inj_on_of_nodup_map hIds hx hp0mem hxe
        rw [if_pos hxe, hx0]
      · rw [if_neg hxe])
  simp [svcUpdatePermission, hv, h0, hname, hres, hact, hdesc, permRepoUpdate,
    hcond1, hcond2, hcond3, hmapid]

/-- `UpdatePermission` with only the description provided: the stored and
returned permission keep the previous name, resource and action. -/
theorem updPerm_desc_only (db : DB) (id : Int) (req : UpdatePermissionRequest) (p0 : Permission)
    (hNames : (db.permissions.map Permission.permission_name).Nodup)
    (hRA : (db.permissions.map (fun p => (p.resource, p.action))).Nodup)
    (h0 : permGetByID db id = .ok p0)
    (hname : req.permission_name = "") (hres : req.resource = "")
    (hact : req.action = "") (hdesc : req.description ≠ "")
    (hlen : req.description.length ≤ 500) :
    svcUpdatePermission db id req =
      (.ok { p0 with description := req.description },
       { db with permissions := db.permissions.map (fun x =>
          if x.id = p0.id then { p0 with description := req.description } else x) }) := by
  obtain ⟨hp0mem, hp0id⟩ := permGetByID_ok h0
  have hv : validUpdatePermissionRequest req = true := by
    simp [validUpdatePermissionRequest, hname, hres, hact, hlen]
  have hcond1 : (db.permissions.all (fun x => !(x.id = p0.id))) = false := by
    rw [List.all_eq_false]
    exact ⟨p0, hp0mem, by simp⟩
  have hcond2 : (db.permissions.any (fun x =>
      (!(x.id = p0.id) && x.permission_name = p0.permission_name))) = false := by
    rw [List.any_eq_false]
    intro x hx
    simp only [Bool.and_eq_true, Bool.not_eq_true', decide_eq_false_iff_not,
      decide_eq_true_eq, not_and]
    intro hne heq
    exact hne (congrArg Permission.id (List.inj_on_of_nodup_map hNames hx hp0mem heq))
  have hcond3 : (db.permissions.any (fun x =>
      (!(x.id = p0.id) && x.resource = p0.resource && x.action = p0.action))) = false := by
    rw [List.any_eq_false]
    intro x hx
    simp only [Bool.and_eq_true, Bool.not_eq_true', decide_eq_false_iff_not,
      decide_eq_true_eq, not_and]
    intro hne h1
    refine hne.1 (congrArg Permission.id
      (List.inj_on_of_nodup_map hRA hx hp0mem ?_))
    show (x.resource, x.action) = (p0.resource, p0.action)
    rw [hne.2, h1]
  simp [svcUpdatePermission, hv, h0, hname, hres, hact, hdesc, permRepoUpdate,
    hcond1, hcond2, hcond3]

/-- Both `UpdateUser` fields empty: the store is unchanged and the returned
value is the stored user with the password blanked. -/
theorem updUser_all_empty (db : DB) (id : Int) (req : UpdateUserRequest) (u0 : User)
    (hIds : (db.users.map User.id).Nodup) (hEmails : (db.users.map User.email).Nodup)
    (h0 : userGetByID db id = .ok u0)
    (hname : req.name = "") (hemail : req.email = "") :
    svcUpdateUser db id req = (.ok { u0 with password := "" }, db) := by
  obtain ⟨hu0mem, hu0id⟩ := userGetByID_ok h0
  have hv : validUpdateUserRequest req = true := by
    simp [validUpdateUserRequest, hname, hemail]
  have hcond1 : (db.users.all (fun x => !(x.id = u0.id))) = false := by
    rw [List.all_eq_false]
    exact ⟨u0, hu0mem, by simp⟩
  have hcond2 : (db.users.any (fun x => (!(x.id = u0.id) && x.email = u0.email))) = false := by
    rw [List.any_eq_false]
    intro x hx
    simp only [Bool.and_eq_true, Bool.not_eq_true', decide_eq_false_iff_not,
      decide_eq_true_eq, not_and]
    intro hne heq
    exact hne (congrArg User.id (List.inj_on_of_nodup_map hEmails hx hu0mem heq))
  have hmapid : db.users.map (fun x =>
      if x.id = u0.id then { x with email := u0.email, name := u0.name } else x) = db.users :=
    map_id_of_mem _ _ (fun x hx => by
      by_cases hxe : x.id = u0.id
      · have hx0 : x = u0 := List.inj_on_of_nodup_map hIds hx hu0mem hxe
        rw [if_pos hxe, hx0]
      · rw [if_neg hxe])
  simp [svcUpdateUser, hv, h0, hname, hemail, userRepoUpdate, hcond1, hcond2, hmapid]

/-- `UpdateUser` with only the name provided: the stored and returned user keep
the previous email, and the stored credential hash is untouched (the repository
writes only email and name). -/
theorem updUser_name_only (db : DB) (id : Int) (req : UpdateUserRequest) (u0 : User)
    (hEmails : (db.users.map User.email).Nodup)
    (h0 : userGetByID db id = .ok u0)
    (hlen : 2 ≤ req.name.length) (hemail : req.email = "") :
    svcUpdateUser db id req =
      (.ok { u0 with name := req.name, password := "" },
       { db with users := db.users.map (fun x =>
          if x.id = u0.id then { x with email := u0.email, name := req.name } else x) }) := by
  obtain ⟨hu0mem, hu0id⟩ := userGetByID_ok h0
  have hnne : req.name ≠ "" := by
    intro he
    rw [he] at hlen
    simp at hlen
  have hv : validUpdateUserRequest req = true := by
    simp [validUpdateUserRequest, hlen, hemail]
  have hcond1 : (db.users.all (fun x => !(x.id = u0.id))) = false := by
    rw [List.all_eq_false]
    exact ⟨u0, hu0mem, by simp⟩
  have hcond2 : (db.users.any (fun x => (!(x.id = u0.id) && x.email = u0.email))) = false := by
    rw [List.any_eq_false]
    intro x hx
    simp only [Bool.and_eq_true, Bool.not_eq_true', decide_eq_false_iff_not,
      decide_eq_true_eq, not_and]
    intro hne heq
    exact hne (congrArg User.id (List.inj_on_of_nodup_map hEmails hx hu0mem heq))
  simp [svcUpdateUser, hv, h0, hnne, hemail, userRepoUpdate, hcond1, hcond2]

/-- A successful `roles` UPDATE replaces exactly the matching row and touches
no other table. -/
theorem roleRepoUpdate_ok_frame {db db' : DB} {role : Role}
    (h : roleRepoUpdate db role = (.ok (), db')) :
    db'.users = db.users ∧ db'.permissions = db.permissions ∧
    db'.user_roles = db.user_roles ∧ db'.role_permissions = db.role_permissions ∧
    db'.roles = db.roles.map (fun x => if x.id = role.id then role else x) := by
  unfold roleRepoUpdate at h
  split at h
  · simp at h
  · split at h
    · simp at h
    · simp only [Prod.mk.injEq, true_and] at h
      rw [← h]
      exact ⟨rfl, rfl, rfl, rfl, rfl⟩

/-- A successful `permissions` UPDATE replaces exactly the matching row and
touches no other table. -/
theorem permRepoUpdate_ok_frame {db db' : DB} {p : Permission}
    (h : permRepoUpdate db p = (.ok (), db')) :
    db'.users = db.users ∧ db'.roles = db.roles ∧
    db'.user_roles = db.user_roles ∧ db'.role_permissions = db.role_permissions ∧
    db'.permissions = db.permissions.map (fun x => if x.id = p.id then p else x) := by
  unfold permRepoUpdate at h
  split at h
  · simp at h
  · split at h
    · simp at h
    · split at h
      · simp at h
      · simp only [Prod.mk.injEq, true_and] at h
        rw [← h]
        exact ⟨rfl, rfl, rfl, rfl, rfl⟩

/-- A successful `users` UPDATE writes only the email and name of the matching
row — in particular the stored credential hash is untouched — and no other
table. -/
theorem userRepoUpdate_ok_frame {db db' : DB} {user : User}
    (h : userRepoUpdate db user = (.ok (), db')) :
    db'.roles = db.roles ∧ db'.permissions = db.permissions ∧
    db'.user_roles = db.user_roles ∧ db'.role_permissions = db.role_permissions ∧
    db'.users = db.users.map (fun x =>
      if x.id = user.id then { x with email := user.email, name := user.name } else x) := by
  unfold userRepoUpdate at h
  split at h
  · simp at h
  · split at h
    · simp at h
    · simp only [Prod.mk.injEq, true_and] at h
      rw [← h]
      exact ⟨rfl, rfl, rfl, rfl, rfl⟩

/-- Dissects the final repository call of `UpdateRole`: a successful result
returns the computed role and the store produced by the repository. -/
theorem updCommit_role {db : DB} {role2 r : Role} {db' : DB}
    (h : (match roleRepoUpdate db role2 with
          | (.ok _, db2) => ((Except.ok role2 : Except String Role), db2)
          | (.error e, db2) => (.error ("failed to update role: " ++ e), db2)) =
        (.ok r, db')) :
    role2 = r ∧ roleRepoUpdate db role2 = (.ok (), db') := by
  rcases hrepo : roleRepoUpdate db role2 with ⟨e, db2⟩
  rw [hrepo] at h
  cases e with
  | error s => simp at h
  | ok u =>
    cases u
    simp only [Prod.mk.injEq, Except.ok.injEq] at h
    obtain ⟨h1, h2⟩ := h
    subst h2
    exact ⟨h1, rfl⟩

/-- Permission analogue of `updCommit_role`. -/
theorem updCommit_perm {db : DB} {p4 p : Permission} {db' : DB}
    (h : (match permRepoUpdate db p4 with
          | (.ok _, db2) => ((Except.ok p4 : Except String Permission), db2)
          | (.error e, db2) => (.error ("failed to update permission: " ++ e), db2)) =
        (.ok p, db')) :
    p4 = p ∧ permRepoUpdate db p4 = (.ok (), db') := by
  rcases hrepo : permRepoUpdate db p4 with ⟨e, db2⟩
  rw [hrepo] at h
  cases e with
  | error s => simp at h
  | ok u =>
    cases u
    simp only [Prod.mk.injEq, Except.ok.injEq] at h
    obtain ⟨h1, h2⟩ := h
    subst h2
    exact ⟨h1, rfl⟩

/-- User analogue of `updCommit_role`; the returned value is additionally
blanked. -/
theorem updCommit_user {db : DB} {user2 u : User} {db' : DB}
    (h : (match userRepoUpdate db user2 with
          | (.ok _, db2) => ((Except.ok { user2 with password := "" } : Except String User), db2)
          | (.error e, db2) => (.error ("failed to update user: " ++ e), db2)) =
        (.ok u, db')) :
    u.password = "" ∧ u.id = user2.id ∧ u.email = user2.email ∧ u.name = user2.name ∧
    userRepoUpdate db user2 = (.ok (), db') := by
  rcases hrepo : userRepoUpdate db user2 with ⟨e, db2⟩
  rw [hrepo] at h
  cases e with
  | error s => simp at h
  | ok w =>
    cases w
    simp only [Prod.mk.injEq, Except.ok.injEq] at h
    obtain ⟨h1, h2⟩ := h
    subst h2
    exact ⟨(congrArg User.password h1).symm, (congrArg User.id h1).symm,
      (congrArg User.email h1).symm, (congrArg User.name h1).symm, rfl⟩

/-- General dissection of a successful `UpdateRole`: for an arbitrary request,
the returned role keeps the previous value of every field supplied empty, its
id is unchanged, and the store changes only by replacing that role's row. -/
theorem updRole_success_frame (db : DB) (id : Int) (req : UpdateRoleRequest)
    (r0 r : Role) (db' : DB)
    (h0 : roleGetByID db id = .ok r0)
    (h : svcUpdateRole db id req = (.ok r, db')) :
    r.id = r0.id ∧
    (req.role_name = "" → r.role_name = r0.role_name) ∧
    (req.description = "" → r.description = r0.description) ∧
    db'.users = db.users ∧ db'.permissions = db.permissions ∧
    db'.user_roles = db.user_roles ∧ db'.role_permissions = db.role_permissions ∧
    db'.roles = db.roles.map (fun x => if x.id = r0.id then r else x) := by
  by_cases hv : validUpdateRoleRequest req = true
  case neg =>
    rw [Bool.not_eq_true] at hv
    simp [svcUpdateRole, hv] at h
  case pos =>
  by_cases hname : req.role_name = ""
  · have hnn : ¬(req.role_name ≠ "") := by simp [hname]
    simp only [svcUpdateRole, hv, Bool.not_true, Bool.false_eq_true, if_false, h0,
      if_neg hnn] at h
    obtain ⟨hXr, hrepo⟩ := updCommit_role h
    rw [hXr] at hrepo
    obtain ⟨f1, f2, f3, f4, f5⟩ := roleRepoUpdate_ok_frame hrepo
    have hid : r.id = r0.id := by
      rw [← hXr]
      simp [apply_ite Role.id]
    refine ⟨hid, ?_, ?_, f1, f2, f3, f4, ?_⟩
    · intro _
      rw [← hXr]
      simp [apply_ite Role.role_name]
    · intro hdesc
      rw [← hXr]
      simp [apply_ite Role.description, hdesc]
    · rw [hid] at f5
      exact f5
  · cases hfind : roleGetByName db (normalizeName req.role_name) with
    | ok existing =>
      by_cases hexid : existing.id ≠ id
      · simp [svcUpdateRole, hv, h0, hname, hfind, hexid] at h
      · simp only [svcUpdateRole, hv, Bool.not_true, Bool.false_eq_true, if_false, h0,
          if_pos hname, hfind, if_neg hexid] at h
        obtain ⟨hXr, hrepo⟩ := updCommit_role h
        rw [hXr] at hrepo
        obtain ⟨f1, f2, f3, f4, f5⟩ := roleRepoUpdate_ok_frame hrepo
        have hid : r.id = r0.id := by
          rw [← hXr]
          simp [apply_ite Role.id]
        refine ⟨hid, fun hc => absurd hc hname, ?_, f1, f2, f3, f4, ?_⟩
        · intro hdesc
          rw [← hXr]
          simp [apply_ite Role.description, hdesc]
        · rw [hid] at f5
          exact f5
    | error s =>
      simp only [svcUpdateRole, hv, Bool.not_true, Bool.false_eq_true, if_false, h0,
        if_pos hname, hfind] at h
      obtain ⟨hXr, hrepo⟩ := updCommit_role h
      rw [hXr] at hrepo
      obtain ⟨f1, f2, f3, f4, f5⟩ := roleRepoUpdate_ok_frame hrepo
      have hid : r.id = r0.id := by
        rw [← hXr]
        simp [apply_ite Role.id]
      refine ⟨hid, fun hc => absurd hc hname, ?_, f1, f2, f3, f4, ?_⟩
      · intro hdesc
        rw [← hXr]
        simp [apply_ite Role.description, hdesc]
      · rw [hid] at f5
        exact f5

/-- General dissection of a successful `UpdatePermission`: the returned
permission keeps the previous value of every field supplied empty, its id is
unchanged, and the store changes only by replacing that permission's row. -/
theorem updPerm_success_frame (db : DB) (id : Int) (req : UpdatePermissionRequest)
    (p0 p : Permission) (db' : DB)
    (h0 : permGetByID db id = .ok p0)
    (h : svcUpdatePermission db id req = (.ok p, db')) :
    p.id = p0.id ∧
    (req.permission_name = "" → p.permission_name = p0.permission_name) ∧
    (req.resource = "" → p.resource = p0.resource) ∧
    (req.action = "" → p.action = p0.action) ∧
    (req.description = "" → p.description = p0.description) ∧
    db'.users = db.users ∧ db'.roles = db.roles ∧
    db'.user_roles = db.user_roles ∧ db'.role_permissions = db.role_permissions ∧
    db'.permissions = db.permissions.map (fun x => if x.id = p0.id then p else x) := by
  by_cases hv : validUpdatePermissionRequest req = true
  case neg =>
    rw [Bool.not_eq_true] at hv
    simp [svcUpdatePermission, hv] at h
  case pos =>
  by_cases hname : req.permission_name = ""
  · have hnn : ¬(req.permission_name ≠ "") := by simp [hname]
    simp only [svcUpdatePermission, hv, Bool.not_true, Bool.false_eq_true, if_false, h0,
      if_neg hnn] at h
    obtain ⟨hXp, hrepo⟩ := updCommit_perm h
    rw [hXp] at hrepo
    obtain ⟨f1, f2, f3, f4, f5⟩ := permRepoUpdate_ok_frame hrepo
    have hid : p.id = p0.id := by
      rw [← hXp]
      simp [apply_ite Permission.id]
    refine ⟨hid, ?_, ?_, ?_, ?_, f1, f2, f3, f4, ?_⟩
    · intro _
      rw [← hXp]
      simp [apply_ite Permission.permission_name]
    · intro hres
      rw [← hXp]
      simp [apply_ite Permission.resource, hres]
    · intro hact
      rw [← hXp]
      simp [apply_ite Permission.action, hact]
    · intro hdesc
      rw [← hXp]
      simp [apply_ite Permission.description, hdesc]
    · rw [hid] at f5
      exact f5
  · cases hfind : permGetByName db (normalizeName req.permission_name) with
    | ok existing =>
      by_cases hexid : existing.id ≠ id
      · simp [svcUpdatePermission, hv, h0, hname, hfind, hexid] at h
      · simp only [svcUpdatePermission, hv, Bool.not_true, Bool.false_eq_true, if_false, h0,
          if_pos hname, hfind, if_neg hexid] at h
        obtain ⟨hXp, hrepo⟩ := updCommit_perm h
        rw [hXp] at hrepo
        obtain ⟨f1, f2, f3, f4, f5⟩ := permRepoUpdate_ok_frame hrepo
        have hid : p.id = p0.id := by
          rw [← hXp]
          simp [apply_ite Permission.id]
        refine ⟨hid, fun hc => absurd hc hname, ?_, ?_, ?_, f1, f2, f3, f4, ?_⟩
        · intro hres
          rw [← hXp]
          simp [apply_ite Permission.resource, hres]
        · intro hact
          rw [← hXp]
          simp [apply_ite Permission.action, hact]
        · intro hdesc
          rw [← hXp]
          simp [apply_ite Permission.description, hdesc]
        · rw [hid] at f5
          exact f5
    | error s =>
      simp only [svcUpdatePermission, hv, Bool.not_true, Bool.false_eq_true, if_false, h0,
        if_pos hname, hfind] at h
      obtain ⟨hXp, hrepo⟩ := updCommit_perm h
      rw [hXp] at hrepo
      obtain ⟨f1, f2, f3, f4, f5⟩ := permRepoUpdate_ok_frame hrepo
      have hid : p.id = p0.id := by
        rw [← hXp]
        simp [apply_ite Permission.id]
      refine ⟨hid, fun hc => absurd hc hname, ?_, ?_, ?_, f1, f2, f3, f4, ?_⟩
      · intro hres
        rw [← hXp]
        simp [apply_ite Permission.resource, hres]
      · intro hact
        rw [← hXp]
        simp [apply_ite Permission.action, hact]
      · intro hdesc
        rw [← hXp]
        simp [apply_ite Permission.description, hdesc]
      · rw [hid] at f5
        exact f5

/-- General dissection of a successful `UpdateUser`: the returned user keeps
the previous value of every field supplied empty, has a blanked password, and
the store changes only by rewriting that user's email and name — the stored
credential hash is never written. -/
theorem updUser_success_frame (db : DB) (id : Int) (req : UpdateUserRequest)
    (u0 u : User) (db' : DB)
    (h0 : userGetByID db id = .ok u0)
    (h : svcUpdateUser db id req = (.ok u, db')) :
    u.id = u0.id ∧
    (req.name = "" → u.name = u0.name) ∧
    (req.email = "" → u.email = u0.email) ∧
    u.password = "" ∧
    db'.roles = db.roles ∧ db'.permissions = db.permissions ∧
    db'.user_roles = db.user_roles ∧ db'.role_permissions = db.role_permissions ∧
    db'.users = db.users.map (fun x =>
      if x.id = u0.id then { x with email := u.email, name := u.name } else x) := by
  by_cases hv : validUpdateUserRequest req = true
  case neg =>
    rw [Bool.not_eq_true] at hv
    simp [svcUpdateUser, hv] at h
  case pos =>
  by_cases hemail : req.email = ""
  · have hnn : ¬(req.email ≠ "") := by simp [hemail]
    simp only [svcUpdateUser, hv, Bool.not_true, Bool.false_eq_true, if_false, h0,
      if_neg hnn] at h
    obtain ⟨hpw, hid2, he2, hn2, hrepo⟩ := updCommit_user h
    obtain ⟨f1, f2, f3, f4, f5⟩ := userRepoUpdate_ok_frame hrepo
    have hid : u.id = u0.id := by
      rw [hid2]
      simp [apply_ite User.id]
    refine ⟨hid, ?_, ?_, hpw, f1, f2, f3, f4, ?_⟩
    · intro hnameE
      rw [hn2]
      simp [apply_ite User.name, hnameE]
    · intro _
      rw [he2]
      simp [apply_ite User.email]
    · rw [hid2.symm.trans hid, ← he2, ← hn2] at f5
      exact f5
  · cases hfind : userGetByEmail db (toLower (trimSpace req.email)) with
    | ok existing =>
      by_cases hexid : existing.id ≠ id
      · simp [svcUpdateUser, hv, h0, hemail, hfind, hexid] at h
      · simp only [svcUpdateUser, hv, Bool.not_true, Bool.false_eq_true, if_false, h0,
          if_pos hemail, hfind, if_neg hexid] at h
        obtain ⟨hpw, hid2, he2, hn2, hrepo⟩ := updCommit_user h
        obtain ⟨f1, f2, f3, f4, f5⟩ := userRepoUpdate_ok_frame hrepo
        have hid : u.id = u0.id := by
          rw [hid2]
          simp [apply_ite User.id]
        refine ⟨hid, ?_, fun hc => absurd hc hemail, hpw, f1, f2, f3, f4, ?_⟩
        · intro hnameE
          rw [hn2]
          simp [apply_ite User.name, hnameE]
        · rw [hid2.symm.trans hid, ← he2, ← hn2] at f5
          exact f5
    | error s =>
      simp only [svcUpdateUser, hv, Bool.not_true, Bool.false_eq_true, if_false, h0,
        if_pos hemail, hfind] at h
      obtain ⟨hpw, hid2, he2, hn2, hrepo⟩ := updCommit_user h
      obtain ⟨f1, f2, f3, f4, f5⟩ := userRepoUpdate_ok_frame hrepo
      have hid : u.id = u0.id := by
        rw [hid2]
        simp [apply_ite User.id]
      refine ⟨hid, ?_, fun hc => absurd hc hemail, hpw, f1, f2, f3, f4, ?_⟩
      · intro hnameE
        rw [hn2]
        simp [apply_ite User.name, hnameE]
      · rw [hid2.symm.trans hid, ← he2, ← hn2] at f5
        exact f5

/-- Store with one role whose description is `"d"`. -/
def roleDescDB : DB :=
  { users := [], roles := [{ id := 1, role_name := "admin", description := "d" }],
    permissions := [], user_roles := [], role_permissions := [] }

/-- **C10** is false in its "no update can set a name to the empty string"
part: the requested name `"  "` (two spaces) passes the `omitempty,min=2`
validation, normalizes to the empty string, and is stored — `UpdateRole`
renames the role stored as `"admin"` to `""`. -/
theorem C10_counterexample :
    roleDescDB.roles = [{ id := 1, role_name := "admin", description := "d" }] ∧
    svcUpdateRole roleDescDB 1 { role_name := "  ", description := "" } =
      (.ok { id := 1, role_name := "", description := "d" },
       { roleDescDB with roles := [{ id := 1, role_name := "", description := "d" }] }) := by
  decide

/-- **C10** (amended): in `UpdateRole`, `UpdatePermission` and `UpdateUser`,
whenever the update succeeds — for an arbitrary request — every field supplied
as exactly the empty string is treated as not provided: the returned entity and
the stored row keep that field's previous value; fields absent from the request
(the ids, the user's stored credential hash) are never written, and under the
schema constraints an all-empty request is a complete no-op on the store.  (The
original "no update can set a name/resource/action to the empty string" is
false: a whitespace-only input of validator length ≥ 2 normalizes to the empty
string and is stored.) -/
theorem C10_empty_fields_keep_previous_values (db : DB) (id : Int)
    (reqR : UpdateRoleRequest) (reqP : UpdatePermissionRequest) (reqU : UpdateUserRequest) :
    (∀ (r0 r : Role) (db' : DB), roleGetByID db id = .ok r0 →
      svcUpdateRole db id reqR = (.ok r, db') →
      r.id = r0.id ∧
      (reqR.role_name = "" → r.role_name = r0.role_name) ∧
      (reqR.description = "" → r.description = r0.description) ∧
      db'.users = db.users ∧ db'.permissions = db.permissions ∧
      db'.user_roles = db.user_roles ∧ db'.role_permissions = db.role_permissions ∧
      db'.roles = db.roles.map (fun x => if x.id = r0.id then r else x)) ∧
    (∀ (p0 p : Permission) (db' : DB), permGetByID db id = .ok p0 →
      svcUpdatePermission db id reqP = (.ok p, db') →
      p.id = p0.id ∧
      (reqP.permission_name = "" → p.permission_name = p0.permission_name) ∧
      (reqP.resource = "" → p.resource = p0.resource) ∧
      (reqP.action = "" → p.action = p0.action) ∧
      (reqP.description = "" → p.description = p0.description) ∧
      db'.users = db.users ∧ db'.roles = db.roles ∧
      db'.user_roles = db.user_roles ∧ db'.role_permissions = db.role_permissions ∧
      db'.permissions = db.permissions.map (fun x => if x.id = p0.id then p else x)) ∧
    (∀ (u0 u : User) (db' : DB), userGetByID db id = .ok u0 →
      svcUpdateUser db id reqU = (.ok u, db') →
      u.id = u0.id ∧
      (reqU.name = "" → u.name = u0.name) ∧
      (reqU.email = "" → u.email = u0.email) ∧
      u.password = "" ∧
      db'.roles = db.roles ∧ db'.permissions = db.permissions ∧
      db'.user_roles = db.user_roles ∧ db'.role_permissions = db.role_permissions ∧
      db'.users = db.users.map (fun x =>
        if x.id = u0.id then { x with email := u.email, name := u.name } else x)) ∧
    (SchemaOK db → ∀ r0 : Role, roleGetByID db id = .ok r0 →
      reqR.role_name = "" → reqR.description = "" →
      svcUpdateRole db id reqR = (.ok r0, db)) ∧
    (SchemaOK db → ∀ p0 : Permission, permGetByID db id = .ok p0 →
      reqP.permission_name = "" → reqP.resource = "" → reqP.action = "" →
      reqP.description = "" → svcUpdatePermission db id reqP = (.ok p0, db)) ∧
    (SchemaOK db → ∀ u0 : User, userGetByID db id = .ok u0 →
      reqU.name = "" → reqU.email = "" →
      svcUpdateUser db id reqU = (.ok { u0 with password := "" }, db)) := by
  refine ⟨fun r0 r db' h0 h => updRole_success_frame db id reqR r0 r db' h0 h,
    fun p0 p db' h0 h => updPerm_success_frame db id reqP p0 p db' h0 h,
    fun u0 u db' h0 h => updUser_success_frame db id reqU u0 u db' h0 h,
    ?_, ?_, ?_⟩
  · intro hOK r0 h0 h1 h2
    obtain ⟨-, -, -, -, hRIds, -, -, hRNames, -⟩ := hOK
    exact updRole_all_empty db id reqR r0 hRIds hRNames h0 h1 h2
  · intro hOK p0 h0 h1 h2 h3 h4
    obtain ⟨-, -, -, -, -, hPIds, -, -, hPNames, hRA, -⟩ := hOK
    exact updPerm_all_empty db id reqP p0 hPIds hPNames hRA h0 h1 h2 h3 h4
  · intro hOK u0 h0 h1 h2
    obtain ⟨-, -, -, hUIds, -, -, hUEmails, -⟩ := hOK
    exact updUser_all_empty db id reqU u0 hUIds hUEmails h0 h1 h2

/-- Witness for C10 (amended), covering a mixed request: updating only the
email of user 1 preserves the stored name and leaves the stored credential
hash `"h"` untouched (only the returned value has it blanked). -/
theorem C10_witness :
    (userGetByID storedAdminDB 1 =
      .ok { id := 1, email := "alice@example.com", password := "h", name := "Alice" } ∧
     svcUpdateUser storedAdminDB 1 { name := "", email := "bob@example.com" } =
      (.ok { id := 1, email := "bob@example.com", password := "", name := "Alice" },
       { storedAdminDB with users :=
          [{ id := 1, email := "bob@example.com", password := "h", name := "Alice" }] })) ∧
    ((1 : Int) = 1 ∧
     ("" = "" → "Alice" = "Alice") ∧
     ("bob@example.com" = "" → "bob@example.com" = "alice@example.com") ∧
     ("" : String) = "" ∧
     storedAdminDB.roles = storedAdminDB.roles ∧
     storedAdminDB.permissions = storedAdminDB.permissions ∧
     storedAdminDB.user_roles = storedAdminDB.user_roles ∧
     storedAdminDB.role_permissions = storedAdminDB.role_permissions ∧
     [{ id := 1, email := "bob@example.com", password := "h", name := "Alice" }] =
       storedAdminDB.users.map (fun x =>
        if x.id = 1 then { x with email := "bob@example.com", name := "Alice" } else x)) :=
  ⟨⟨by decide, by decide⟩,
    (C10_empty_fields_keep_previous_values storedAdminDB 1
      { role_name := "", description := "" }
      { permission_name := "", resource := "", action := "", description := "" }
      { name := "", email := "bob@example.com" }).2.2.1
      { id := 1, email := "alice@example.com", password := "h", name := "Alice" }
      { id := 1, email := "bob@example.com", password := "", name := "Alice" }
      { storedAdminDB with users :=
        [{ id := 1, email := "bob@example.com", password := "h", name := "Alice" }] }
      (by decide) (by decide)⟩

end GoAuth
